import Mathlib

/-!
Verification of the payload-normalization core of the cricket dashboard
(`src/app.py`): the three parsers `parse_live_matches` (with its inner
`extract_matches_recursive`), `parse_match_live_score`, and
`parse_match_scorecard`, shallowly embedded over a JSON-like tree type.

Modelling conventions:
* `RawNode` is the decoded JSON value: Python dicts become association
  lists (keys unique and in insertion order for real payloads; the
  theorems hold for arbitrary association lists, a superset), Python
  lists become Lean lists, and scalars are tagged.
* A JSON number is either an integer (`.int`) or a float carried as the
  decimal literal that `str()` prints for it (`.float "18.2"`); Python
  float truthiness is "is the literal zero".
* Python attribute/index/type errors are modelled by `Except Unit`:
  a function that can raise returns `Except Unit α`, and `throw ()`
  stands for any raised exception.  The exception payload is not
  modelled, so evaluation-order differences that only change *which*
  exception is raised are invisible, as intended.
* `datetime.now()` in `parse_match_live_score` is modelled by an extra
  `now : String` argument holding the already-formatted timestamp.
* `str()` on containers is modelled by a structural printer that agrees
  with Python on scalars (the only case the specification exercises);
  string escaping and quote selection inside `repr` are not modelled.
-/

/-- A decoded JSON-like value (`RawNode` in the specification). -/
inductive RawNode where
  | dict : List (String × RawNode) → RawNode
  | list : List RawNode → RawNode
  | str : String → RawNode
  | int : Int → RawNode
  | float : String → RawNode
  | bool : Bool → RawNode
  | null : RawNode
deriving Repr

/-- First-match association-list lookup: Python `d[key]` presence /
`d.get(key)` on a dict with these entries. -/
def dictGet : List (String × RawNode) → String → Option RawNode
  | [], _ => none
  | (k, v) :: tl, key => if k = key then some v else dictGet tl key

/-- A decimal literal denotes zero iff all of its digits are `0`. -/
def floatIsZero (s : String) : Bool :=
  (s.toList.filter (fun c => c.isDigit)).all (· = '0')

/-- Python truthiness of a JSON value. -/
def pyTruthy : RawNode → Bool
  | .dict d => !d.isEmpty
  | .list l => !l.isEmpty
  | .str s => !(s = "")
  | .int n => !(n = 0)
  | .float f => !(floatIsZero f)
  | .bool b => b
  | .null => false

/-- Python `v.get(key, dflt)`: defaults on a missing key, raises
`AttributeError` when `v` is not a dict. -/
def pyGet (v : RawNode) (key : String) (dflt : RawNode) : Except Unit RawNode :=
  match v with
  | .dict d => pure ((dictGet d key).getD dflt)
  | _ => throw ()

/-- Python `a or b` on already-evaluated values. -/
def pyOr (a b : RawNode) : RawNode :=
  if pyTruthy a then a else b

mutual
/-- Python `repr` of a JSON value (scalars exact; string quoting letter-
for-letter only for strings without quotes or escapes, which is all the
specification exercises). -/
def pyRepr : RawNode → String
  | .dict d => "\x7b" ++ pyReprEntries d ++ "\x7d"
  | .list l => "[" ++ pyReprItems l ++ "]"
  | .str s => "'" ++ s ++ "'"
  | .int n => toString n
  | .float f => f
  | .bool b => if b then "True" else "False"
  | .null => "None"

def pyReprEntries : List (String × RawNode) → String
  | [] => ""
  | [(k, v)] => "'" ++ k ++ "': " ++ pyRepr v
  | (k, v) :: tl => "'" ++ k ++ "': " ++ pyRepr v ++ ", " ++ pyReprEntries tl

def pyReprItems : List RawNode → String
  | [] => ""
  | [v] => pyRepr v
  | v :: tl => pyRepr v ++ ", " ++ pyReprItems tl
end

/-- Python `str` of a JSON value, as interpolated by an f-string. -/
def pyStr : RawNode → String
  | .str s => s
  | v => pyRepr v

/-- `isinstance(v, dict)`. -/
def RawNode.isDict : RawNode → Bool
  | .dict _ => true
  | _ => false

/-- `isinstance(v, (dict, list))`. -/
def RawNode.isContainer : RawNode → Bool
  | .dict _ => true
  | .list _ => true
  | _ => false

/-- One flat live-match record (`match_data` in `app.py`).  Fields the
source fills with raw `.get` results stay `RawNode`; fields built by an
f-string are `String`. -/
structure MatchSummary where
  match_id : RawNode
  team1 : RawNode
  team2 : RawNode
  teams : String
  format : RawNode
  venue : RawNode
  city : RawNode
  status : RawNode
  start_time : RawNode
  series : RawNode
  match_desc : RawNode
  state : RawNode
deriving Repr

/-- The record construction of `extract_matches_recursive` for a dict
node whose `matchInfo` is the (truthy) mapping `mi` (`app.py` lines
192-210): test `matchId` for truthiness, then build the `match_data`
literal, every field a defaulted `.get`. -/
def emitRecord (entries mi : List (String × RawNode)) : Except Unit (List MatchSummary) :=
  if pyTruthy ((dictGet mi "matchId").getD .null) then do
    -- `team1 = mi.get("team1", {})` and the twin locals are inlined
    let t1name ← pyGet ((dictGet mi "team1").getD (.dict [])) "teamSName" (.str "")
    let t2name ← pyGet ((dictGet mi "team2").getD (.dict [])) "teamSName" (.str "")
    let ground ← pyGet ((dictGet mi "venueInfo").getD (.dict [])) "ground" (.str "")
    let city ← pyGet ((dictGet mi "venueInfo").getD (.dict [])) "city" (.str "")
    pure [{
      match_id := (dictGet mi "matchId").getD .null
      team1 := t1name
      team2 := t2name
      teams := pyStr t1name ++ " vs " ++ pyStr t2name
      format := pyOr ((dictGet mi "matchFormat").getD .null)
        ((dictGet mi "mFormat").getD (.str ""))
      venue := pyOr ground ((dictGet mi "venue").getD (.str ""))
      city := city
      status := (dictGet entries "statusText").getD (.str "")
      start_time := (dictGet mi "startDate").getD .null
      series := (dictGet mi "seriesName").getD (.str "")
      match_desc := (dictGet mi "matchDesc").getD (.str "")
      state := (dictGet mi "state").getD (.str "") }]
  else
    pure []

/-- The emission test of `extract_matches_recursive` at one dict node:
`if obj.get("matchInfo") and obj.get("matchInfo", {}).get("matchId")`.
A truthy non-mapping `matchInfo` raises at the second `.get`; otherwise
the zero- or one-element emission is produced by `emitRecord`. -/
def emitNode (entries : List (String × RawNode)) : Except Unit (List MatchSummary) :=
  if pyTruthy ((dictGet entries "matchInfo").getD .null) then
    match (dictGet entries "matchInfo").getD .null with
    | .dict mi => emitRecord entries mi
    | _ => throw ()
  else
    pure []

mutual
/-- `extract_matches_recursive` (`app.py` lines 189-217): depth-first
walk; at a dict emit (maybe) then recurse into container values, at a
list recurse into every item, else nothing. -/
def extract_matches_recursive : RawNode → Except Unit (List MatchSummary)
  | .dict entries => do
      let emitted ← emitNode entries
      let rest ← extractValues entries
      pure (emitted ++ rest)
  | .list items => extractItems items
  | _ => pure []

/-- `for value in obj.values(): if isinstance(value, (dict, list)):
extracted.extend(extract_matches_recursive(value))`. -/
def extractValues : List (String × RawNode) → Except Unit (List MatchSummary)
  | [] => pure []
  | (_, v) :: tl => do
      let hd ← if v.isContainer then extract_matches_recursive v else pure []
      let rest ← extractValues tl
      pure (hd ++ rest)

/-- `for item in obj: extracted.extend(extract_matches_recursive(item))`. -/
def extractItems : List RawNode → Except Unit (List MatchSummary)
  | [] => pure []
  | it :: tl => do
      let hd ← extract_matches_recursive it
      let rest ← extractItems tl
      pure (hd ++ rest)
end

/-- Contribution of one dict value to the walk: recursion guarded by
`isinstance(value, (dict, list))`. -/
def extractChild (v : RawNode) : Except Unit (List MatchSummary) :=
  if v.isContainer then extract_matches_recursive v else pure []

/-- `parse_live_matches` (`app.py` lines 183-220): early `[]` on a
non-dict, else the recursive extraction. -/
def parse_live_matches (data : RawNode) : Except Unit (List MatchSummary) :=
  match data with
  | .dict _ => extract_matches_recursive data
  | _ => pure []

/-- Total lookup on an arbitrary value: the entry when `v` is a dict
holding the key, `none` otherwise. -/
def dictGetOpt : RawNode → String → Option RawNode
  | .dict d, key => dictGet d key
  | _, _ => none

/-- The emission condition of `extract_matches_recursive` at a dict
node, as a pure predicate: `matchInfo` is Python-truthy and its
`matchId` (when `matchInfo` is a mapping) is Python-truthy.  When
`matchInfo` is a truthy non-mapping the source raises instead; such a
node never occurs in a run that returns normally. -/
def qualifies (entries : List (String × RawNode)) : Bool :=
  let mi0 := (dictGet entries "matchInfo").getD .null
  pyTruthy mi0 && pyTruthy ((dictGetOpt mi0 "matchId").getD .null)

mutual
/-- Number of qualifying nodes the depth-first walk of
`extract_matches_recursive` visits. -/
def countQualifying : RawNode → Nat
  | .dict entries => (if qualifies entries then 1 else 0) + countValues entries
  | .list items => countItems items
  | _ => 0

def countValues : List (String × RawNode) → Nat
  | [] => 0
  | (_, v) :: tl => (if v.isContainer then countQualifying v else 0) + countValues tl

def countItems : List RawNode → Nat
  | [] => 0
  | it :: tl => countQualifying it + countItems tl
end

/-- Count contribution of one dict value. -/
def countChild (v : RawNode) : Nat :=
  if v.isContainer then countQualifying v else 0

/-- Python `len(v)`: defined for strings, lists and dicts, a
`TypeError` otherwise. -/
def pyLen : RawNode → Except Unit Nat
  | .dict d => pure d.length
  | .list l => pure l.length
  | .str s => pure s.length
  | _ => throw ()

/-- Python `v[i]` for a non-negative literal index: list indexing (an
`IndexError` out of range), one-character strings for strings, and a
raise for everything else (a JSON-decoded dict has string keys, so an
integer subscript is a `KeyError`). -/
def pyIndex (v : RawNode) (i : Nat) : Except Unit RawNode :=
  match v with
  | .list l =>
      match l[i]? with
      | some x => pure x
      | none => throw ()
  | .str s =>
      match s.toList[i]? with
      | some c => pure (.str (String.singleton c))
      | none => throw ()
  | _ => throw ()

/-- Python `v.items()`: the entry list of a dict, an `AttributeError`
otherwise. -/
def pyItems : RawNode → Except Unit (List (String × RawNode))
  | .dict d => pure d
  | _ => throw ()

/-- Python `for x in v`: list elements, string characters, dict keys;
a `TypeError` on non-iterables. -/
def pyIterate : RawNode → Except Unit (List RawNode)
  | .list l => pure l
  | .str s => pure (s.toList.map (fun c => .str (String.singleton c)))
  | .dict d => pure (d.map (fun kv => RawNode.str kv.1))
  | _ => throw ()

/-- One live-score snapshot (`live_score` in `app.py`).  Fields filled
with raw `.get` results stay `RawNode`; f-string fields are `String`. -/
structure LiveScore where
  match_id : RawNode
  team1 : RawNode
  team2 : RawNode
  team1_score : String
  team2_score : String
  current_over : String
  status : RawNode
  state : RawNode
  toss : RawNode
  venue : String
  series : RawNode
  match_format : RawNode
  result : RawNode
  last_updated : String
deriving Repr

/-- `"{runs}/{wickets} ({overs} ov)"` for one `inningsScores` entry
(`app.py` lines 255 and 257): three `.get` calls with default `0`, then
the f-string. -/
def formatInningsScore (e : RawNode) : Except Unit String := do
  let runs ← pyGet e "runs" (.int 0)
  let wickets ← pyGet e "wickets" (.int 0)
  let overs ← pyGet e "overs" (.int 0)
  pure (pyStr runs ++ "/" ++ pyStr wickets ++ " (" ++ pyStr overs ++ " ov)")

/-- `if len(innings_scores) >= need: ... innings_scores[i] ...` for one
score string (`app.py` lines 254-257): the string stays empty unless
`inningsScores` has at least `need` entries (`n` is its length). -/
def scoreStringAt (iscores : RawNode) (n i need : Nat) : Except Unit String :=
  if need ≤ n then do
    let e ← pyIndex iscores i
    formatInningsScore e
  else
    pure ""

/-- `miniscore.get("overSummary", {})` and the `"Over {overNum}:
{runs} runs"` f-string (`app.py` lines 258-260). -/
def currentOverString (ms : RawNode) : Except Unit String := do
  let over_summary ← pyGet ms "overSummary" (.dict [])
  if pyTruthy over_summary then do
    let onum ← pyGet over_summary "overNum" (.str "")
    let oruns ← pyGet over_summary "runs" (.int 0)
    pure ("Over " ++ pyStr onum ++ ": " ++ pyStr oruns ++ " runs")
  else
    pure ""

/-- The `if miniscore:` block of `parse_match_live_score` (`app.py`
lines 252-260), producing the `(team1_score, team2_score,
current_over)` triple; all three stay empty when `miniscore` is falsy. -/
def miniscoreScores (ms : RawNode) : Except Unit (String × String × String) :=
  if pyTruthy ms then do
    let innings_scores ← pyGet ms "inningsScores" (.list [])
    let n ← pyLen innings_scores
    let t1score ← scoreStringAt innings_scores n 0 1
    let t2score ← scoreStringAt innings_scores n 1 2
    let curOver ← currentOverString ms
    pure (t1score, t2score, curOver)
  else
    pure ("", "", "")

/-- `parse_match_live_score` (`app.py` lines 222-262).  `now` is the
formatted wall-clock string the source obtains from `datetime.now()`;
it is threaded in as an argument because it is the function's only
impurity.  The source builds the `live_score` dict first and then
mutates its three score strings inside `if miniscore:`; here the three
strings are computed first and the record built once, which is
observationally identical because the dict literal itself cannot raise
and the same `.get` chain runs in the same order. -/
def parse_match_live_score (now : String) (match_details : RawNode) :
    Except Unit (Option LiveScore) :=
  match match_details with
  | .dict d => do
      let match_info ← pyGet ((dictGet d "matchHeader").getD (.dict [])) "matchInfo" (.dict [])
      let team1 ← pyGet match_info "team1" (.dict [])
      let team2 ← pyGet match_info "team2" (.dict [])
      let statusVal ← pyGet ((dictGet d "matchHeader").getD (.dict [])) "status" (.str "")
      let stateVal ← pyGet ((dictGet d "matchHeader").getD (.dict [])) "state" (.str "")
      let matchIdVal ← pyGet match_info "matchId" .null
      let t1name ← pyGet team1 "teamSName" (.str "")
      let t2name ← pyGet team2 "teamSName" (.str "")
      let tossVal ← pyGet (← pyGet match_info "tossResults" (.dict [])) "tossWinnerName" (.str "")
      let ground ← pyGet (← pyGet match_info "venueInfo" (.dict [])) "ground" (.str "")
      let cityVal ← pyGet (← pyGet match_info "venueInfo" (.dict [])) "city" (.str "")
      let seriesVal ← pyGet match_info "seriesName" (.str "")
      let formatVal ← pyGet match_info "matchFormat" (.str "")
      let resultText ← pyGet (← pyGet ((dictGet d "matchHeader").getD (.dict [])) "result" (.dict [])) "resultText" (.str "")
      let scores ← miniscoreScores ((dictGet d "miniscore").getD (.dict []))
      pure (some {
        match_id := matchIdVal
        team1 := t1name
        team2 := t2name
        team1_score := scores.1
        team2_score := scores.2.1
        current_over := scores.2.2
        status := statusVal
        state := stateVal
        toss := tossVal
        venue := pyStr ground ++ " - " ++ pyStr cityVal
        series := seriesVal
        match_format := formatVal
        result := resultText
        last_updated := now })
  | _ => pure none

/-- One batting scorecard row (`app.py` lines 285-296). -/
structure BattingRow where
  match_id : RawNode
  innings : RawNode
  team : RawNode
  player : RawNode
  runs : RawNode
  balls : RawNode
  fours : RawNode
  sixes : RawNode
  strike_rate : RawNode
  status : RawNode
deriving Repr

/-- One bowling scorecard row (`app.py` lines 303-315). -/
structure BowlingRow where
  match_id : RawNode
  innings : RawNode
  team : RawNode
  player : RawNode
  overs : RawNode
  maidens : RawNode
  runs : RawNode
  wickets : RawNode
  economy : RawNode
  noballs : RawNode
  wides : RawNode
deriving Repr

/-- The batting-row literal of `parse_match_scorecard`: every field a
`.get` with a default on the per-player mapping (raises when the player
value is not a mapping). -/
def mkBattingRow (matchIdVal inningsNumber battingTeam pd : RawNode) :
    Except Unit BattingRow :=
  match pd with
  | .dict p => pure {
      match_id := matchIdVal
      innings := inningsNumber
      team := battingTeam
      player := (dictGet p "name").getD (.str "")
      runs := (dictGet p "runs").getD (.int 0)
      balls := (dictGet p "balls").getD (.int 0)
      fours := (dictGet p "fours").getD (.int 0)
      sixes := (dictGet p "sixes").getD (.int 0)
      strike_rate := (dictGet p "strikeRate").getD (.float "0.0")
      status := (dictGet p "outDesc").getD (.str "not out") }
  | _ => throw ()

/-- The bowling-row literal of `parse_match_scorecard`. -/
def mkBowlingRow (matchIdVal inningsNumber bowlingTeam pd : RawNode) :
    Except Unit BowlingRow :=
  match pd with
  | .dict p => pure {
      match_id := matchIdVal
      innings := inningsNumber
      team := bowlingTeam
      player := (dictGet p "name").getD (.str "")
      overs := (dictGet p "overs").getD (.float "0.0")
      maidens := (dictGet p "maidens").getD (.int 0)
      runs := (dictGet p "runs").getD (.int 0)
      wickets := (dictGet p "wickets").getD (.int 0)
      economy := (dictGet p "economy").getD (.float "0.0")
      wides := (dictGet p "wides").getD (.int 0)
      noballs := (dictGet p "noBalls").getD (.int 0) }
  | _ => throw ()

/-- The body of the `for innings in scorecard` loop (`app.py` lines
275-315) for one innings entry: reads `batTeamDetails.batsmenData` and
`bowlTeamDetails.bowlersData` and emits one row per player, in the
source mapping's iteration order. -/
def scoreInnings (sd : List (String × RawNode)) (innings : RawNode) :
    Except Unit (List BattingRow × List BowlingRow) :=
  match innings with
  | .dict inn => do
      let matchIdVal := (dictGet sd "matchId").getD (.str "")
      let inningsNumber := (dictGet inn "inningsId").getD (.int 0)
      let battingTeam := (dictGet inn "batTeamName").getD (.str "")
      let bowlingTeam := (dictGet inn "bowlTeamName").getD (.str "")
      let btd := (dictGet inn "batTeamDetails").getD (.dict [])
      let batsmenData ← pyGet btd "batsmenData" (.dict [])
      let batsmen ← pyItems batsmenData
      let brows ← batsmen.mapM
        (fun kv => mkBattingRow matchIdVal inningsNumber battingTeam kv.2)
      let wtd := (dictGet inn "bowlTeamDetails").getD (.dict [])
      let bowlersData ← pyGet wtd "bowlersData" (.dict [])
      let bowlers ← pyItems bowlersData
      let wrows ← bowlers.mapM
        (fun kv => mkBowlingRow matchIdVal inningsNumber bowlingTeam kv.2)
      pure (brows, wrows)
  | _ => throw ()

/-- The accumulating `for innings in scorecard` loop: batting and
bowling rows of each innings are appended, in order, to the two lists
built so far. -/
def scorecardLoop (sd : List (String × RawNode)) :
    List RawNode → List BattingRow → List BowlingRow →
    Except Unit (List BattingRow × List BowlingRow)
  | [], bs, ws => pure (bs, ws)
  | inn :: tl, bs, ws => do
      let (b2, w2) ← scoreInnings sd inn
      scorecardLoop sd tl (bs ++ b2) (ws ++ w2)

/-- `parse_match_scorecard` (`app.py` lines 264-317): two empty lists
on a non-dict, else the loop over `scoreCard` (absent defaulting to the
empty list). -/
def parse_match_scorecard (scorecard_data : RawNode) :
    Except Unit (List BattingRow × List BowlingRow) :=
  match scorecard_data with
  | .dict sd => do
      let sc := (dictGet sd "scoreCard").getD (.list [])
      let innList ← pyIterate sc
      scorecardLoop sd innList [] []
  | _ => pure ([], [])

/-! ### Concrete payloads used as witnesses and counterexamples -/

/-- A minimal qualifying node: `{"matchInfo": {"matchId": id}}`. -/
def qualLeaf (idv : RawNode) : RawNode :=
  .dict [("matchInfo", .dict [("matchId", idv)])]

/-- The record the extractor emits for `qualLeaf idv`: every optional
field defaulted. -/
def defaultSummary (idv : RawNode) : MatchSummary :=
  { match_id := idv, team1 := .str "", team2 := .str "", teams := " vs ",
    format := .str "", venue := .str "", city := .str "", status := .str "",
    start_time := .null, series := .str "", match_desc := .str "",
    state := .str "" }

/-- One qualifying node at depth 3, surrounded by non-qualifying
siblings, mappings, sequences and a scalar. -/
def nestedOneEntries : List (String × RawNode) :=
  [("responseLastUpdated", .str "168"),
   ("typeMatches", .list
     [.str "noise",
      .dict [("junk", .int 3)],
      .dict [("seriesMatches", .list [qualLeaf (.int 41881)])]])]

/-- Two qualifying nodes with the same `matchId` at different paths
(one under a `"live"` grouping, one nested under `"recent"`). -/
def dupEntries : List (String × RawNode) :=
  [("live", qualLeaf (.int 7)),
   ("recent", .dict [("m", qualLeaf (.int 7))])]

/-- A small tree for exercising the traversal-order statement. -/
def orderEntries : List (String × RawNode) :=
  [("matchInfo", .dict [("matchId", .int 1)]),
   ("child", qualLeaf (.int 2)),
   ("later", .list [qualLeaf (.int 3)])]

/-- The one-entry `inningsScores` element of the specification's
example: `{"runs":120,"wickets":3,"overs":18.2}`. -/
def inningsEntryC7 : List (String × RawNode) :=
  [("runs", .int 120), ("wickets", .int 3), ("overs", .float "18.2")]

/-- A match-detail payload whose miniscore has exactly that one entry. -/
def detailC7 : List (String × RawNode) :=
  [("miniscore", .dict [("inningsScores", .list [.dict inningsEntryC7])])]

/-- The LiveScore `parse_match_live_score` produces for `detailC7` at
capture time `"T"`. -/
def liveScoreC7 : LiveScore :=
  { match_id := .null, team1 := .str "", team2 := .str "",
    team1_score := "120/3 (18.2 ov)", team2_score := "", current_over := "",
    status := .str "", state := .str "", toss := .str "", venue := " - ",
    series := .str "", match_format := .str "", result := .str "",
    last_updated := "T" }

/-- A two-innings scorecard payload: two batsmen and one bowler in the
first innings, an innings with no detail mappings second. -/
def innsListC4 : List RawNode :=
  [.dict [("inningsId", .int 1), ("batTeamName", .str "IND"),
          ("batTeamDetails", .dict [("batsmenData", .dict [
             ("b1", .dict [("name", .str "A"), ("runs", .int 10)]),
             ("b2", .dict [("name", .str "B")])])]),
          ("bowlTeamDetails", .dict [("bowlersData", .dict [
             ("w1", .dict [("name", .str "C")])])])],
   .dict [("inningsId", .int 2)]]

def scorecardEntriesC4 : List (String × RawNode) :=
  [("matchId", .int 3), ("scoreCard", .list innsListC4)]

/-- The batting rows `parse_match_scorecard` produces for
`scorecardEntriesC4`. -/
def battingRowsC4 : List BattingRow :=
  [{ match_id := .int 3, innings := .int 1, team := .str "IND",
     player := .str "A", runs := .int 10, balls := .int 0, fours := .int 0,
     sixes := .int 0, strike_rate := .float "0.0", status := .str "not out" },
   { match_id := .int 3, innings := .int 1, team := .str "IND",
     player := .str "B", runs := .int 0, balls := .int 0, fours := .int 0,
     sixes := .int 0, strike_rate := .float "0.0", status := .str "not out" }]

/-- The bowling rows for the same payload. -/
def bowlingRowsC4 : List BowlingRow :=
  [{ match_id := .int 3, innings := .int 1, team := .str "",
     player := .str "C", overs := .float "0.0", maidens := .int 0,
     runs := .int 0, wickets := .int 0, economy := .float "0.0",
     wides := .int 0, noballs := .int 0 }]

/-- A second `inningsScores` entry, for exercising `team2_score`. -/
def inningsEntryC7b : List (String × RawNode) :=
  [("runs", .int 45), ("wickets", .int 1), ("overs", .float "7.2")]

/-- A match-detail payload whose miniscore has two innings entries. -/
def detailC7b : List (String × RawNode) :=
  [("miniscore", .dict [("inningsScores",
     .list [.dict inningsEntryC7, .dict inningsEntryC7b])])]

/-- The LiveScore `parse_match_live_score` produces for `detailC7b` at
capture time `"T"`: both score strings filled. -/
def liveScoreC7b : LiveScore :=
  { match_id := .null, team1 := .str "", team2 := .str "",
    team1_score := "120/3 (18.2 ov)", team2_score := "45/1 (7.2 ov)",
    current_over := "", status := .str "", state := .str "",
    toss := .str "", venue := " - ", series := .str "",
    match_format := .str "", result := .str "", last_updated := "T" }

/-- A match-detail payload carrying a ground and a city under
`matchHeader.matchInfo.venueInfo`. -/
def edenEntries : List (String × RawNode) :=
  [("matchHeader", .dict [("matchInfo", .dict [("venueInfo", .dict
      [("ground", .str "Eden Gardens"), ("city", .str "Kolkata")])])])]

/-- The LiveScore `parse_match_live_score` produces for `edenEntries`
at capture time `"T"`. -/
def edenLiveScore : LiveScore :=
  { match_id := .null, team1 := .str "", team2 := .str "",
    team1_score := "", team2_score := "", current_over := "",
    status := .str "", state := .str "", toss := .str "",
    venue := "Eden Gardens - Kolkata", series := .str "",
    match_format := .str "", result := .str "", last_updated := "T" }

/-! ### Shape conditions under which no parser raises -/

/-- A sequence of mappings. -/
def isListOfDicts : RawNode → Bool
  | .list l => l.all RawNode.isDict
  | _ => false

/-- A mapping all of whose values are mappings. -/
def isDictOfDicts : RawNode → Bool
  | .dict d => d.all (fun kv => kv.2.isDict)
  | _ => false

/-- Keys the parsers navigate through expecting a mapping value. -/
def mappingKeys : List String :=
  ["matchInfo", "team1", "team2", "venueInfo", "matchHeader",
   "tossResults", "result", "miniscore", "overSummary",
   "batTeamDetails", "bowlTeamDetails"]

/-- The shape a present value under a structure-bearing key must have
for the parsers' fixed-path navigation not to raise: a mapping under
the keys of `mappingKeys`, a sequence of mappings under
`inningsScores`/`scoreCard`, a mapping of mappings under
`batsmenData`/`bowlersData`; any value under any other key. -/
def keyShapeOk (k : String) (v : RawNode) : Bool :=
  if k = "batsmenData" ∨ k = "bowlersData" then isDictOfDicts v
  else if k = "inningsScores" ∨ k = "scoreCard" then isListOfDicts v
  else if k ∈ mappingKeys then v.isDict
  else true

mutual
/-- Every dict entry anywhere in the tree satisfies `keyShapeOk`. -/
def shapeOk : RawNode → Bool
  | .dict entries => shapeOkValues entries
  | .list items => shapeOkItems items
  | _ => true

def shapeOkValues : List (String × RawNode) → Bool
  | [] => true
  | (k, v) :: tl => keyShapeOk k v && shapeOk v && shapeOkValues tl

def shapeOkItems : List RawNode → Bool
  | [] => true
  | it :: tl => shapeOk it && shapeOkItems tl
end

/-- A partial, ragged, but well-shaped payload exercising all three
parsers: missing keys everywhere, one qualifying match, one innings
with an empty player mapping. -/
def mixedTree : RawNode := .dict
  [("matchHeader", .dict [("matchInfo", .dict [("team1", .dict [])]),
                          ("state", .str "live")]),
   ("miniscore", .dict [("inningsScores", .list [.dict [("runs", .int 12)]])]),
   ("scoreCard", .list [.dict [("batTeamDetails", .dict
       [("batsmenData", .dict [("p", .dict [])])])]]),
   ("typeMatches", .list [.dict [("matchInfo", .dict [("matchId", .int 5)])]])]

/-! ### Basic facts about the `Except Unit` embedding -/

@[simp] theorem except_bind_ok {α β : Type} (a : α) (f : α → Except Unit β) :
    (Except.ok a >>= f) = f a := rfl

@[simp] theorem except_bind_error {α β : Type} (f : α → Except Unit β) :
    ((Except.error () : Except Unit α) >>= f) = Except.error () := rfl

@[simp] theorem except_pure_eq_ok {α : Type} (a : α) :
    (pure a : Except Unit α) = Except.ok a := rfl

@[simp] theorem except_isOk_ok {α : Type} (a : α) :
    (Except.ok a : Except Unit α).isOk = true := rfl

@[simp] theorem except_isOk_error {α : Type} :
    (Except.error () : Except Unit α).isOk = false := rfl

/-- Inversion for a two-step `Except` chain ending in a pure
concatenation, the shape of every recursive case of
`extract_matches_recursive`. -/
theorem bind_append_ok {α : Type} {x y : Except Unit (List α)}
    {k : List α → List α → List α} {l : List α}
    (h : (do let a ← x; let b ← y; pure (k a b)) = Except.ok l) :
    ∃ a b, x = Except.ok a ∧ y = Except.ok b ∧ l = k a b := by
  cases hx : x with
  | error e => cases e; rw [hx] at h; simp at h
  | ok a =>
      cases hy : y with
      | error e => cases e; rw [hx, hy] at h; simp at h
      | ok b =>
          rw [hx, hy] at h
          simp at h
          exact ⟨a, b, rfl, rfl, h.symm⟩


/-! ### Structure of the recursive extractor -/

theorem extractValues_cons (k : String) (v : RawNode) (tl : List (String × RawNode)) :
    extractValues ((k, v) :: tl) =
      (do
        let hd ← extractChild v
        let rest ← extractValues tl
        pure (hd ++ rest)) := by
  rw [extractValues, extractChild]
  by_cases hc : v.isContainer <;> simp [hc]

/-- Unfolding a successful run at a dict node: the node's own emission
comes first, then the concatenation over the values. -/
theorem extract_dict_ok {entries : List (String × RawNode)} {l : List MatchSummary}
    (h : extract_matches_recursive (.dict entries) = .ok l) :
    ∃ e r, emitNode entries = .ok e ∧ extractValues entries = .ok r ∧ l = e ++ r := by
  rw [extract_matches_recursive] at h
  exact bind_append_ok h

theorem extract_list_ok {items : List RawNode} {l : List MatchSummary}
    (h : extract_matches_recursive (.list items) = .ok l) :
    extractItems items = .ok l := by
  rw [extract_matches_recursive] at h
  exact h

theorem extractValues_cons_ok {k : String} {v : RawNode}
    {tl : List (String × RawNode)} {l : List MatchSummary}
    (h : extractValues ((k, v) :: tl) = .ok l) :
    ∃ hd r, extractChild v = .ok hd ∧ extractValues tl = .ok r ∧ l = hd ++ r := by
  rw [extractValues_cons] at h
  exact bind_append_ok h

theorem extractItems_cons_ok {it : RawNode} {tl : List RawNode} {l : List MatchSummary}
    (h : extractItems (it :: tl) = .ok l) :
    ∃ hd r, extract_matches_recursive it = .ok hd ∧
      extractItems tl = .ok r ∧ l = hd ++ r := by
  rw [extractItems] at h
  exact bind_append_ok h

/-- Inversion of the emission test: either `matchInfo` is falsy and
nothing is emitted, or it is a truthy mapping and `emitRecord` ran. -/
theorem emitNode_ok_inv {entries : List (String × RawNode)} {e : List MatchSummary}
    (h : emitNode entries = .ok e) :
    (pyTruthy ((dictGet entries "matchInfo").getD .null) = false ∧ e = []) ∨
    (∃ mi, (dictGet entries "matchInfo").getD .null = .dict mi ∧
      pyTruthy (.dict mi) = true ∧ emitRecord entries mi = .ok e) := by
  rw [emitNode] at h
  cases hmi : (dictGet entries "matchInfo").getD .null with
  | dict mi =>
      rw [hmi] at h
      by_cases ht : pyTruthy (RawNode.dict mi)
      · rw [if_pos ht] at h
        exact Or.inr ⟨mi, rfl, ht, h⟩
      · rw [if_neg ht] at h
        simp at h
        exact Or.inl ⟨by simpa using ht, h⟩
  | list xs =>
      rw [hmi] at h
      by_cases ht : pyTruthy (RawNode.list xs)
      · rw [if_pos ht] at h
        have h2 : (Except.error () : Except Unit (List MatchSummary)) = .ok e := h
        simp at h2
      · rw [if_neg ht] at h
        simp at h
        exact Or.inl ⟨by simpa using ht, h⟩
  | str sv =>
      rw [hmi] at h
      by_cases ht : pyTruthy (RawNode.str sv)
      · rw [if_pos ht] at h
        have h2 : (Except.error () : Except Unit (List MatchSummary)) = .ok e := h
        simp at h2
      · rw [if_neg ht] at h
        simp at h
        exact Or.inl ⟨by simpa using ht, h⟩
  | int n =>
      rw [hmi] at h
      by_cases ht : pyTruthy (RawNode.int n)
      · rw [if_pos ht] at h
        have h2 : (Except.error () : Except Unit (List MatchSummary)) = .ok e := h
        simp at h2
      · rw [if_neg ht] at h
        simp at h
        exact Or.inl ⟨by simpa using ht, h⟩
  | float f =>
      rw [hmi] at h
      by_cases ht : pyTruthy (RawNode.float f)
      · rw [if_pos ht] at h
        have h2 : (Except.error () : Except Unit (List MatchSummary)) = .ok e := h
        simp at h2
      · rw [if_neg ht] at h
        simp at h
        exact Or.inl ⟨by simpa using ht, h⟩
  | bool b =>
      rw [hmi] at h
      by_cases ht : pyTruthy (RawNode.bool b)
      · rw [if_pos ht] at h
        have h2 : (Except.error () : Except Unit (List MatchSummary)) = .ok e := h
        simp at h2
      · rw [if_neg ht] at h
        simp at h
        exact Or.inl ⟨by simpa using ht, h⟩
  | null =>
      rw [hmi] at h
      rw [if_neg (by simp [pyTruthy])] at h
      simp at h
      exact Or.inl ⟨by simp [pyTruthy], h⟩

/-- A successful `emitRecord` produces one record when `matchId` is
truthy and none otherwise. -/
theorem emitRecord_ok_length {entries mi : List (String × RawNode)} {e : List MatchSummary}
    (h : emitRecord entries mi = .ok e) :
    e.length = if pyTruthy ((dictGet mi "matchId").getD .null) then 1 else 0 := by
  rw [emitRecord] at h
  by_cases hid : pyTruthy ((dictGet mi "matchId").getD .null)
  · rw [if_pos hid] at h
    rw [if_pos hid]
    cases hg1 : pyGet ((dictGet mi "team1").getD (.dict [])) "teamSName" (.str "") with
    | error e1 => cases e1; rw [hg1] at h; simp at h
    | ok t1name =>
      cases hg2 : pyGet ((dictGet mi "team2").getD (.dict [])) "teamSName" (.str "") with
      | error e2 => cases e2; rw [hg1, hg2] at h; simp at h
      | ok t2name =>
        cases hg3 : pyGet ((dictGet mi "venueInfo").getD (.dict [])) "ground" (.str "") with
        | error e3 => cases e3; rw [hg1, hg2, hg3] at h; simp at h
        | ok ground =>
          cases hg4 : pyGet ((dictGet mi "venueInfo").getD (.dict [])) "city" (.str "") with
          | error e4 => cases e4; rw [hg1, hg2, hg3, hg4] at h; simp at h
          | ok city =>
            rw [hg1, hg2, hg3, hg4] at h
            simp at h
            rw [← h]
            rfl
  · rw [if_neg hid] at h
    rw [if_neg hid]
    simp at h
    simp [← h]

/-- A successful emission at one dict node has exactly one record when
the node qualifies and none otherwise. -/
theorem emitNode_ok_length {entries : List (String × RawNode)} {e : List MatchSummary}
    (h : emitNode entries = .ok e) :
    e.length = if qualifies entries then 1 else 0 := by
  rcases emitNode_ok_inv h with ⟨hf, he⟩ | ⟨mi, hmi, ht, hrec⟩
  · rw [qualifies]
    simp [hf, he]
  · rw [qualifies]
    simp only [hmi, dictGetOpt, ht, Bool.true_and]
    exact emitRecord_ok_length hrec

mutual
/-- A normal run of the extractor returns exactly one record per
qualifying node of the tree: multiplicity is preserved exactly. -/
theorem extract_ok_length : ∀ (t : RawNode) (l : List MatchSummary),
    extract_matches_recursive t = .ok l → l.length = countQualifying t
  | .dict entries, l => fun h => by
      obtain ⟨e, r, he, hr, hl⟩ := extract_dict_ok h
      rw [countQualifying, hl, List.length_append]
      rw [emitNode_ok_length he, extractValues_ok_length entries r hr]
  | .list items, l => fun h => by
      rw [countQualifying]
      exact extractItems_ok_length items l (extract_list_ok h)
  | .str s, l => fun h => by
      have h2 : Except.ok ([] : List MatchSummary) = Except.ok l := h
      rw [Except.ok.injEq] at h2
      rw [← h2]
      rfl
  | .int n, l => fun h => by
      have h2 : Except.ok ([] : List MatchSummary) = Except.ok l := h
      rw [Except.ok.injEq] at h2
      rw [← h2]
      rfl
  | .float f, l => fun h => by
      have h2 : Except.ok ([] : List MatchSummary) = Except.ok l := h
      rw [Except.ok.injEq] at h2
      rw [← h2]
      rfl
  | .bool b, l => fun h => by
      have h2 : Except.ok ([] : List MatchSummary) = Except.ok l := h
      rw [Except.ok.injEq] at h2
      rw [← h2]
      rfl
  | .null, l => fun h => by
      have h2 : Except.ok ([] : List MatchSummary) = Except.ok l := h
      rw [Except.ok.injEq] at h2
      rw [← h2]
      rfl

theorem extractValues_ok_length : ∀ (entries : List (String × RawNode)) (l : List MatchSummary),
    extractValues entries = .ok l → l.length = countValues entries
  | [], l => fun h => by
      rw [extractValues] at h
      simp at h
      simp [← h, countValues]
  | (k, v) :: tl, l => fun h => by
      obtain ⟨hd, r, hhd, hr, hl⟩ := extractValues_cons_ok h
      rw [countValues, hl, List.length_append]
      rw [extractValues_ok_length tl r hr]
      congr 1
      rw [extractChild] at hhd
      by_cases hc : v.isContainer
      · rw [if_pos hc] at hhd
        rw [if_pos hc]
        exact extract_ok_length v hd hhd
      · rw [if_neg hc] at hhd
        rw [if_neg hc]
        simp at hhd
        simp [← hhd]

theorem extractItems_ok_length : ∀ (items : List RawNode) (l : List MatchSummary),
    extractItems items = .ok l → l.length = countItems items
  | [], l => fun h => by
      rw [extractItems] at h
      simp at h
      simp [← h, countItems]
  | it :: tl, l => fun h => by
      obtain ⟨hd, r, hhd, hr, hl⟩ := extractItems_cons_ok h
      rw [countItems, hl, List.length_append]
      rw [extract_ok_length it hd hhd, extractItems_ok_length tl r hr]
end

/-- When a node qualifies and its `matchInfo` has no `team1` entry, the
emitted record's `team1` is the empty string (the missing optional
field is defaulted, not an error). -/
theorem emitRecord_team1_default {entries mi : List (String × RawNode)} {e : List MatchSummary}
    (h : emitRecord entries mi = .ok e)
    (hid : pyTruthy ((dictGet mi "matchId").getD .null) = true)
    (ht1 : dictGet mi "team1" = none) :
    ∃ m, e = [m] ∧ m.team1 = .str "" := by
  rw [emitRecord] at h
  rw [if_pos hid] at h
  rw [ht1] at h
  have hg1 : pyGet ((none : Option RawNode).getD (.dict [])) "teamSName" (.str "")
      = .ok (.str "") := rfl
  rw [hg1] at h
  simp only [except_bind_ok] at h
  cases hg2 : pyGet ((dictGet mi "team2").getD (.dict [])) "teamSName" (.str "") with
  | error e2 => cases e2; rw [hg2] at h; simp at h
  | ok t2name =>
    cases hg3 : pyGet ((dictGet mi "venueInfo").getD (.dict [])) "ground" (.str "") with
    | error e3 => cases e3; rw [hg2, hg3] at h; simp at h
    | ok ground =>
      cases hg4 : pyGet ((dictGet mi "venueInfo").getD (.dict [])) "city" (.str "") with
      | error e4 => cases e4; rw [hg2, hg3, hg4] at h; simp at h
      | ok city =>
        rw [hg2, hg3, hg4] at h
        simp at h
        exact ⟨_, h.symm, rfl⟩

/-! ### Claims C1, C3, C6, C8: the recursive match extractor -/

/-- C1 (amended).  For a **mapping** input with exactly one qualifying
node at any depth — counted by `countQualifying`, which is insensitive
to how many non-qualifying siblings, mappings or sequences surround it —
a normal run of `parse_live_matches` returns exactly one MatchSummary.
For a top-level **sequence**, however, `parse_live_matches` returns the
empty list without looking inside (its `isinstance(data, dict)` guard);
only the inner recursive extractor descends into sequences. -/
theorem claim1_single_qualifying_node :
    (∀ (entries : List (String × RawNode)) (l : List MatchSummary),
       parse_live_matches (.dict entries) = .ok l →
       countQualifying (.dict entries) = 1 → l.length = 1)
    ∧ (∀ items : List RawNode, parse_live_matches (.list items) = .ok []) := by
  constructor
  · intro entries l h hc
    rw [parse_live_matches] at h
    rw [extract_ok_length (.dict entries) l h, hc]
  · intro items
    rfl

/-- Witness for C1: a qualifying node at depth 3 inside sequences and
mappings with non-qualifying siblings yields exactly one record. -/
theorem claim1_single_qualifying_node_witness :
    parse_live_matches (.dict nestedOneEntries) = .ok [defaultSummary (.int 41881)]
    ∧ countQualifying (.dict nestedOneEntries) = 1
    ∧ [defaultSummary (.int 41881)].length = 1 :=
  ⟨rfl, rfl, claim1_single_qualifying_node.1 nestedOneEntries _ rfl rfl⟩

/-- Counterexample for C1 as stated: the same qualifying node placed
under a top-level sequence produces no record at all, because
`parse_live_matches` returns `[]` for any non-mapping input. -/
theorem claim1_top_level_sequence_counterexample :
    parse_live_matches (.list [qualLeaf (.int 41881)]) = .ok []
    ∧ countQualifying (.list [qualLeaf (.int 41881)]) = 1 :=
  ⟨rfl, rfl⟩

/-- C3 (amended).  At a mapping node whose `matchInfo` is a mapping
`mi`, a normal run emits one MatchSummary for the node exactly when
`matchInfo` and its `matchId` are Python-**truthy** (not merely
non-null: `0`, `""` and an empty `matchInfo` all suppress emission).
Suppression affects that node only — the walk still descends into every
value — and a qualifying node missing `team1` is emitted with the empty
string, not suppressed. -/
theorem claim3_truthy_matchid_emission :
    (∀ (entries mi : List (String × RawNode)) (l : List MatchSummary),
       dictGet entries "matchInfo" = some (.dict mi) →
       extract_matches_recursive (.dict entries) = .ok l →
       l.length = (if pyTruthy (.dict mi) && pyTruthy ((dictGet mi "matchId").getD .null)
         then 1 else 0) + countValues entries)
    ∧ (∀ (entries mi : List (String × RawNode)) (l : List MatchSummary),
       dictGet entries "matchInfo" = some (.dict mi) →
       (pyTruthy (.dict mi) && pyTruthy ((dictGet mi "matchId").getD .null)) = true →
       dictGet mi "team1" = none →
       extract_matches_recursive (.dict entries) = .ok l →
       ∃ m rest, l = m :: rest ∧ m.team1 = .str "" ∧ extractValues entries = .ok rest) := by
  constructor
  · intro entries mi l hmi h
    obtain ⟨e, r, he, hr, hl⟩ := extract_dict_ok h
    rw [hl, List.length_append]
    rw [emitNode_ok_length he, extractValues_ok_length entries r hr]
    congr 1
    rw [qualifies]
    simp [hmi, dictGetOpt]
  · intro entries mi l hmi hq ht1 h
    obtain ⟨e, r, he, hr, hl⟩ := extract_dict_ok h
    rcases emitNode_ok_inv he with ⟨hf, _⟩ | ⟨mi', hmi', _, hrec⟩
    · rw [hmi] at hf
      simp only [Option.getD_some] at hf
      rw [Bool.and_eq_true] at hq
      rw [hq.1] at hf
      cases hf
    · rw [hmi] at hmi'
      simp only [Option.getD_some, RawNode.dict.injEq] at hmi'
      subst hmi'
      rw [Bool.and_eq_true] at hq
      obtain ⟨m, hm, hteam⟩ := emitRecord_team1_default hrec hq.2 ht1
      exact ⟨m, r, by rw [hl, hm]; rfl, hteam, hr⟩

/-- Witness for C3: a qualifying node with truthy `matchId` and no
`team1` is emitted once, with empty-string `team1`, and its
non-qualifying child is still visited (contributing its own record). -/
theorem claim3_truthy_matchid_emission_witness :
    (∃ m rest, [defaultSummary (.int 9), defaultSummary (.int 8)] = m :: rest
       ∧ m.team1 = .str ""
       ∧ extractValues [("matchInfo", .dict [("matchId", .int 9)]),
           ("child", qualLeaf (.int 8))] = .ok rest) :=
  claim3_truthy_matchid_emission.2
    [("matchInfo", .dict [("matchId", .int 9)]), ("child", qualLeaf (.int 8))]
    [("matchId", .int 9)] _ rfl rfl rfl rfl

/-- Counterexample for C3 as stated: `matchId = 0` and `matchId = ""`
are non-null yet emit nothing, because the source tests Python
truthiness, not presence. -/
theorem claim3_nonnull_matchid_counterexample :
    parse_live_matches (qualLeaf (.int 0)) = .ok []
    ∧ parse_live_matches (qualLeaf (.str "")) = .ok [] :=
  ⟨rfl, rfl⟩

/-- C6.  A normal run of `parse_live_matches` returns exactly one
record per qualifying node — multiplicity is preserved and nothing is
deduplicated — and on the concrete payload carrying the same
`matchId = 7` at two different paths it returns two identical records. -/
theorem claim6_duplicates_preserved :
    (∀ (entries : List (String × RawNode)) (l : List MatchSummary),
       parse_live_matches (.dict entries) = .ok l →
       l.length = countQualifying (.dict entries))
    ∧ parse_live_matches (.dict dupEntries)
        = .ok [defaultSummary (.int 7), defaultSummary (.int 7)] := by
  constructor
  · intro entries l h
    rw [parse_live_matches] at h
    exact extract_ok_length (.dict entries) l h
  · rfl

/-- Witness for C6: on the duplicate payload the count is two and the
returned list has length two. -/
theorem claim6_duplicates_preserved_witness :
    countQualifying (.dict dupEntries) = 2
    ∧ [defaultSummary (.int 7), defaultSummary (.int 7)].length
        = countQualifying (.dict dupEntries) :=
  ⟨rfl, claim6_duplicates_preserved.1 dupEntries _ rfl⟩

/-- C8.  The output of a normal run is the concatenation, in
depth-first traversal order, of all emissions: at a mapping node the
node's own emission (inspected before recursing) precedes everything
produced from its values, and the per-value / per-item contributions
are concatenated in source order. -/
theorem claim8_depth_first_concatenation :
    (∀ (entries : List (String × RawNode)) (l : List MatchSummary),
       extract_matches_recursive (.dict entries) = .ok l →
       ∃ e r, emitNode entries = .ok e ∧ extractValues entries = .ok r ∧ l = e ++ r)
    ∧ (∀ (entries : List (String × RawNode)) (r : List MatchSummary),
       extractValues entries = .ok r →
       ∃ parts, entries.mapM (fun kv => extractChild kv.2) = .ok parts ∧ r = parts.flatten)
    ∧ (∀ (items : List RawNode) (l : List MatchSummary),
       extractItems items = .ok l →
       ∃ parts, items.mapM extract_matches_recursive = .ok parts ∧ l = parts.flatten) := by
  refine ⟨fun entries l h => extract_dict_ok h, ?_, ?_⟩
  · intro entries r h
    induction entries generalizing r with
    | nil =>
        rw [extractValues] at h
        simp at h
        exact ⟨[], rfl, by simp [h]⟩
    | cons kv tl ih =>
        obtain ⟨k, v⟩ := kv
        obtain ⟨hd, r', hhd, hr', hl⟩ := extractValues_cons_ok h
        obtain ⟨parts, hp, hj⟩ := ih r' hr'
        refine ⟨hd :: parts, ?_, ?_⟩
        · rw [List.mapM_cons]
          rw [hhd, hp]
          rfl
        · simp [hl, hj]
  · intro items l h
    induction items generalizing l with
    | nil =>
        rw [extractItems] at h
        simp at h
        exact ⟨[], rfl, by simp [h]⟩
    | cons it tl ih =>
        obtain ⟨hd, r', hhd, hr', hl⟩ := extractItems_cons_ok h
        obtain ⟨parts, hp, hj⟩ := ih r' hr'
        refine ⟨hd :: parts, ?_, ?_⟩
        · rw [List.mapM_cons]
          rw [hhd, hp]
          rfl
        · simp [hl, hj]

/-- Witness for C8: on a node that itself qualifies and has a
qualifying child and a qualifying grandchild inside a sequence, the
parent's record comes first, then the children's, in source order. -/
theorem claim8_depth_first_concatenation_witness :
    extract_matches_recursive (.dict orderEntries)
      = .ok [defaultSummary (.int 1), defaultSummary (.int 2), defaultSummary (.int 3)]
    ∧ ∃ e r, emitNode orderEntries = .ok e ∧ extractValues orderEntries = .ok r
        ∧ [defaultSummary (.int 1), defaultSummary (.int 2), defaultSummary (.int 3)] = e ++ r :=
  ⟨rfl, claim8_depth_first_concatenation.1 orderEntries _ rfl⟩

theorem bind_ok_inv {α β : Type} {x : Except Unit α} {f : α → Except Unit β} {b : β}
    (h : (x >>= f) = .ok b) : ∃ a, x = .ok a ∧ f a = .ok b := by
  cases hx : x with
  | error e => cases e; rw [hx] at h; simp at h
  | ok a => rw [hx] at h; exact ⟨a, rfl, h⟩

/-- Inversion of a successful `parse_match_live_score` run on a
mapping: the venue string is the ground/city f-string, the timestamp is
the capture time, and the two score strings follow `inningsScores`. -/
theorem parse_live_dict_ok_inv {now : String} {d : List (String × RawNode)} {ls : LiveScore}
    (h : parse_match_live_score now (.dict d) = .ok (some ls)) :
    (∃ mi vi ground cityVal : RawNode,
      pyGet ((dictGet d "matchHeader").getD (.dict [])) "matchInfo" (.dict []) = .ok mi
      ∧ pyGet mi "venueInfo" (.dict []) = .ok vi
      ∧ pyGet vi "ground" (.str "") = .ok ground
      ∧ pyGet vi "city" (.str "") = .ok cityVal
      ∧ ls.venue = pyStr ground ++ " - " ++ pyStr cityVal)
    ∧ ls.last_updated = now
    ∧ (pyTruthy ((dictGet d "miniscore").getD (.dict [])) = false →
        ls.team1_score = "" ∧ ls.team2_score = "")
    ∧ (∀ xs : List RawNode,
        pyGet ((dictGet d "miniscore").getD (.dict [])) "inningsScores" (.list [])
          = .ok (.list xs) →
        pyTruthy ((dictGet d "miniscore").getD (.dict [])) = true →
        (xs = [] → ls.team1_score = "" ∧ ls.team2_score = "") ∧
        (∀ x tl, xs = x :: tl → formatInningsScore x = .ok ls.team1_score) ∧
        (xs.length ≤ 1 → ls.team2_score = "") ∧
        (∀ x y tl, xs = x :: y :: tl → formatInningsScore y = .ok ls.team2_score)) := by
  rw [parse_match_live_score] at h
  obtain ⟨match_info, h1, h⟩ := bind_ok_inv h
  obtain ⟨team1, h2, h⟩ := bind_ok_inv h
  obtain ⟨team2, h3, h⟩ := bind_ok_inv h
  obtain ⟨statusVal, h4, h⟩ := bind_ok_inv h
  obtain ⟨stateVal, h5, h⟩ := bind_ok_inv h
  obtain ⟨matchIdVal, h6, h⟩ := bind_ok_inv h
  obtain ⟨t1name, h7, h⟩ := bind_ok_inv h
  obtain ⟨t2name, h8, h⟩ := bind_ok_inv h
  obtain ⟨tossObj, h9, h⟩ := bind_ok_inv h
  obtain ⟨tossVal, h10, h⟩ := bind_ok_inv h
  obtain ⟨vObj1, h11, h⟩ := bind_ok_inv h
  obtain ⟨ground, h12, h⟩ := bind_ok_inv h
  obtain ⟨vObj2, h13, h⟩ := bind_ok_inv h
  obtain ⟨cityVal, h14, h⟩ := bind_ok_inv h
  obtain ⟨seriesVal, h15, h⟩ := bind_ok_inv h
  obtain ⟨formatVal, h16, h⟩ := bind_ok_inv h
  obtain ⟨resObj, h17, h⟩ := bind_ok_inv h
  obtain ⟨resultText, h18, h⟩ := bind_ok_inv h
  obtain ⟨scores, hsc, h⟩ := bind_ok_inv h
  simp only [except_pure_eq_ok, Except.ok.injEq, Option.some.injEq] at h
  subst h
  have hvv : vObj1 = vObj2 := by
    rw [h11] at h13
    simpa using h13
  rw [← hvv] at h14
  refine ⟨⟨match_info, vObj1, ground, cityVal, h1, h11, h12, h14, rfl⟩, rfl, ?_, ?_⟩
  · intro hms
    rw [miniscoreScores] at hsc
    rw [if_neg (by rw [hms]; exact Bool.false_ne_true)] at hsc
    simp at hsc
    rw [← hsc]
    exact ⟨rfl, rfl⟩
  · intro xs hxs hms
    rw [miniscoreScores] at hsc
    rw [if_pos hms] at hsc
    obtain ⟨iscores, hi1, hsc⟩ := bind_ok_inv hsc
    rw [hxs] at hi1
    simp only [Except.ok.injEq] at hi1
    subst hi1
    obtain ⟨n, hn, hsc⟩ := bind_ok_inv hsc
    have hn' : n = xs.length := by
      rw [pyLen] at hn
      simp at hn
      exact hn.symm
    subst hn'
    obtain ⟨t1score, ht1, hsc⟩ := bind_ok_inv hsc
    obtain ⟨t2score, ht2, hsc⟩ := bind_ok_inv hsc
    obtain ⟨curOver, hcur, hsc⟩ := bind_ok_inv hsc
    simp only [except_pure_eq_ok, Except.ok.injEq] at hsc
    subst hsc
    refine ⟨?_, ?_, ?_, ?_⟩
    · rintro rfl
      rw [scoreStringAt, if_neg (by simp)] at ht1
      rw [scoreStringAt, if_neg (by simp)] at ht2
      simp at ht1 ht2
      exact ⟨ht1.symm, ht2.symm⟩
    · rintro x tl rfl
      rw [scoreStringAt, if_pos (by simp)] at ht1
      obtain ⟨e0, he0, ht1⟩ := bind_ok_inv ht1
      rw [pyIndex] at he0
      simp at he0
      rw [← he0] at ht1
      rw [ht1]
    · intro hlen
      rw [scoreStringAt, if_neg (by omega)] at ht2
      simp at ht2
      rw [ht2]
    · rintro x y tl rfl
      rw [scoreStringAt, if_pos (by simp)] at ht2
      obtain ⟨e1, he1, ht2⟩ := bind_ok_inv ht2
      rw [pyIndex] at he1
      simp at he1
      rw [← he1] at ht2
      rw [ht2]

/-! ### Claims C5, C7, C9, C10: the live-score shaper -/

/-- C5.  `parse_match_live_score` returns the absent value for every
non-mapping input — `None`, strings (such as `"not a mapping"`),
numbers, booleans and sequences alike — and for the empty mapping
returns, with no exception, a LiveScore whose string fields are all
empty or at their defaults (`match_id` null, raw fields `""`, score
strings `""`, venue at its `" - "` default, timestamp the capture
time). -/
theorem claim5_non_mapping_short_circuit :
    (∀ (now : String) (t : RawNode), t.isDict = false →
       parse_match_live_score now t = .ok none)
    ∧ (∀ now : String,
       parse_match_live_score now (.dict []) = .ok (some {
          match_id := .null, team1 := .str "", team2 := .str "",
          team1_score := "", team2_score := "", current_over := "",
          status := .str "", state := .str "", toss := .str "",
          venue := " - ", series := .str "", match_format := .str "",
          result := .str "", last_updated := now })) := by
  constructor
  · intro now t ht
    cases t with
    | dict d => simp [RawNode.isDict] at ht
    | list items => rfl
    | str s => rfl
    | int n => rfl
    | float f => rfl
    | bool b => rfl
    | null => rfl
  · intro now
    rfl

/-- Witness for C5: the universal non-mapping conjunct applied to
`None`, to the string of the specification's example, and to a
sequence. -/
theorem claim5_non_mapping_short_circuit_witness :
    RawNode.null.isDict = false
    ∧ parse_match_live_score "T" .null = .ok none
    ∧ (RawNode.str "not a mapping").isDict = false
    ∧ parse_match_live_score "T" (.str "not a mapping") = .ok none
    ∧ (RawNode.list [.dict []]).isDict = false
    ∧ parse_match_live_score "T" (.list [.dict []]) = .ok none :=
  ⟨rfl, claim5_non_mapping_short_circuit.1 "T" .null rfl,
   rfl, claim5_non_mapping_short_circuit.1 "T" (.str "not a mapping") rfl,
   rfl, claim5_non_mapping_short_circuit.1 "T" (.list [.dict []]) rfl⟩

/-- C7.  On a normal run whose `miniscore.inningsScores` is a sequence
`xs`: `team1_score` is non-empty only if `xs` has at least one entry
and `team2_score` only if it has at least two; the first and second
entries (when mappings) are **each** formatted as
`"{runs}/{wickets} ({overs} ov)"` with `0` defaults — `team1_score`
from `xs[0]` and `team2_score` from `xs[1]` — and on the
specification's one-entry example the scores are `"120/3 (18.2 ov)"`
and `""`, while a two-entry payload fills both. -/
theorem claim7_score_string_fill :
    (∀ (now : String) (d ms : List (String × RawNode)) (xs : List RawNode) (ls : LiveScore),
       dictGet d "miniscore" = some (.dict ms) →
       dictGet ms "inningsScores" = some (.list xs) →
       parse_match_live_score now (.dict d) = .ok (some ls) →
       (ls.team1_score ≠ "" → 1 ≤ xs.length) ∧
       (ls.team2_score ≠ "" → 2 ≤ xs.length) ∧
       (∀ x tl, xs = x :: tl → formatInningsScore x = .ok ls.team1_score) ∧
       (∀ e tl, xs = .dict e :: tl →
          ls.team1_score = pyStr ((dictGet e "runs").getD (.int 0)) ++ "/" ++
            pyStr ((dictGet e "wickets").getD (.int 0)) ++ " (" ++
            pyStr ((dictGet e "overs").getD (.int 0)) ++ " ov)") ∧
       (∀ x y tl, xs = x :: y :: tl → formatInningsScore y = .ok ls.team2_score) ∧
       (∀ x e tl, xs = x :: .dict e :: tl →
          ls.team2_score = pyStr ((dictGet e "runs").getD (.int 0)) ++ "/" ++
            pyStr ((dictGet e "wickets").getD (.int 0)) ++ " (" ++
            pyStr ((dictGet e "overs").getD (.int 0)) ++ " ov)") ∧
       (xs.length ≤ 1 → ls.team2_score = ""))
    ∧ (parse_match_live_score "T" (.dict detailC7)).map
        (Option.map (fun ls => (ls.team1_score, ls.team2_score)))
      = .ok (some ("120/3 (18.2 ov)", ""))
    ∧ (parse_match_live_score "T" (.dict detailC7b)).map
        (Option.map (fun ls => (ls.team1_score, ls.team2_score)))
      = .ok (some ("120/3 (18.2 ov)", "45/1 (7.2 ov)")) := by
  refine ⟨?_, rfl, rfl⟩
  intro now d ms xs ls hms hxs h
  have hmsv : (dictGet d "miniscore").getD (.dict []) = .dict ms := by rw [hms]; rfl
  have hmsne : ms ≠ [] := by
    intro h0
    rw [h0] at hxs
    exact Option.noConfusion hxs
  have htruthy : pyTruthy ((dictGet d "miniscore").getD (.dict [])) = true := by
    rw [hmsv]
    simp [pyTruthy, hmsne]
  have hget : pyGet ((dictGet d "miniscore").getD (.dict [])) "inningsScores" (.list [])
      = .ok (.list xs) := by
    rw [hmsv, pyGet, hxs]
    rfl
  obtain ⟨-, -, -, hmain⟩ := parse_live_dict_ok_inv h
  obtain ⟨hnil, hfirst, hshort, hsecond⟩ := hmain xs hget htruthy
  refine ⟨?_, ?_, hfirst, ?_, hsecond, ?_, hshort⟩
  · intro hne
    cases xs with
    | nil => exact absurd (hnil rfl).1 hne
    | cons x tl => simp
  · intro hne
    by_cases hlen : xs.length ≤ 1
    · exact absurd (hshort hlen) hne
    · omega
  · intro e tl hx
    have := hfirst (.dict e) tl hx
    have hfmt : formatInningsScore (.dict e)
        = .ok (pyStr ((dictGet e "runs").getD (.int 0)) ++ "/" ++
            pyStr ((dictGet e "wickets").getD (.int 0)) ++ " (" ++
            pyStr ((dictGet e "overs").getD (.int 0)) ++ " ov)") := rfl
    rw [hfmt] at this
    simpa using this.symm
  · intro x e tl hx
    have := hsecond x (.dict e) tl hx
    have hfmt : formatInningsScore (.dict e)
        = .ok (pyStr ((dictGet e "runs").getD (.int 0)) ++ "/" ++
            pyStr ((dictGet e "wickets").getD (.int 0)) ++ " (" ++
            pyStr ((dictGet e "overs").getD (.int 0)) ++ " ov)") := rfl
    rw [hfmt] at this
    simpa using this.symm

/-- Witness for C7: applying the fill rule to the one-entry payload
(first score filled, second empty) and to the two-entry payload, whose
second score string carries the second entry's runs/wickets/overs. -/
theorem claim7_score_string_fill_witness :
    parse_match_live_score "T" (.dict detailC7) = .ok (some liveScoreC7)
    ∧ liveScoreC7.team1_score
        = pyStr ((dictGet inningsEntryC7 "runs").getD (.int 0)) ++ "/" ++
          pyStr ((dictGet inningsEntryC7 "wickets").getD (.int 0)) ++ " (" ++
          pyStr ((dictGet inningsEntryC7 "overs").getD (.int 0)) ++ " ov)"
    ∧ liveScoreC7.team2_score = ""
    ∧ parse_match_live_score "T" (.dict detailC7b) = .ok (some liveScoreC7b)
    ∧ liveScoreC7b.team2_score
        = pyStr ((dictGet inningsEntryC7b "runs").getD (.int 0)) ++ "/" ++
          pyStr ((dictGet inningsEntryC7b "wickets").getD (.int 0)) ++ " (" ++
          pyStr ((dictGet inningsEntryC7b "overs").getD (.int 0)) ++ " ov)" :=
  ⟨rfl,
   (claim7_score_string_fill.1 "T" detailC7
      [("inningsScores", .list [.dict inningsEntryC7])] [.dict inningsEntryC7]
      liveScoreC7 rfl rfl rfl).2.2.2.1 inningsEntryC7 [] rfl,
   (claim7_score_string_fill.1 "T" detailC7
      [("inningsScores", .list [.dict inningsEntryC7])] [.dict inningsEntryC7]
      liveScoreC7 rfl rfl rfl).2.2.2.2.2.2 (by simp),
   rfl,
   (claim7_score_string_fill.1 "T" detailC7b
      [("inningsScores", .list [.dict inningsEntryC7, .dict inningsEntryC7b])]
      [.dict inningsEntryC7, .dict inningsEntryC7b]
      liveScoreC7b rfl rfl rfl).2.2.2.2.2.1 (.dict inningsEntryC7) inningsEntryC7b [] rfl⟩

/-- C10.  Every LiveScore a normal run returns on a mapping input has
venue equal to the f-string `"{ground} - {city}"` built over the
`matchHeader.matchInfo.venueInfo` navigation (each step a `.get` with a
`{}` default, `ground`/`city` defaulting to the empty string): it
always contains the literal `" - "` separator, is never empty — even
for the empty mapping, where it is exactly `" - "` — and carries the
navigated ground and city verbatim. -/
theorem claim10_venue_always_separator :
    (∀ (now : String) (d : List (String × RawNode)) (ls : LiveScore),
       parse_match_live_score now (.dict d) = .ok (some ls) →
       ∃ mi vi ground city : RawNode,
         pyGet ((dictGet d "matchHeader").getD (.dict [])) "matchInfo" (.dict []) = .ok mi
         ∧ pyGet mi "venueInfo" (.dict []) = .ok vi
         ∧ pyGet vi "ground" (.str "") = .ok ground
         ∧ pyGet vi "city" (.str "") = .ok city
         ∧ ls.venue = pyStr ground ++ " - " ++ pyStr city
         ∧ ls.venue ≠ "")
    ∧ (parse_match_live_score "T" (.dict [])).map (Option.map LiveScore.venue)
      = .ok (some " - ")
    ∧ (parse_match_live_score "T" (.dict edenEntries)).map (Option.map LiveScore.venue)
      = .ok (some "Eden Gardens - Kolkata") := by
  refine ⟨?_, rfl, rfl⟩
  intro now d ls h
  obtain ⟨⟨mi, vi, g, c, hmi, hvi, hg, hc, hv⟩, -, -, -⟩ := parse_live_dict_ok_inv h
  refine ⟨mi, vi, g, c, hmi, hvi, hg, hc, hv, ?_⟩
  intro h0
  rw [hv] at h0
  have hlen := congrArg String.length h0
  rw [String.length_append, String.length_append] at hlen
  have h3 : (" - ").length = 3 := rfl
  have h0' : ("" : String).length = 0 := rfl
  omega

/-- Witness for C10: on the payload carrying a ground and a city the
venue is exactly `"Eden Gardens - Kolkata"`, tied to the
`matchHeader.matchInfo.venueInfo` navigation. -/
theorem claim10_venue_always_separator_witness :
    parse_match_live_score "T" (.dict edenEntries) = .ok (some edenLiveScore)
    ∧ ∃ mi vi ground city : RawNode,
        pyGet ((dictGet edenEntries "matchHeader").getD (.dict [])) "matchInfo" (.dict [])
          = .ok mi
        ∧ pyGet mi "venueInfo" (.dict []) = .ok vi
        ∧ pyGet vi "ground" (.str "") = .ok ground
        ∧ pyGet vi "city" (.str "") = .ok city
        ∧ edenLiveScore.venue = pyStr ground ++ " - " ++ pyStr city
        ∧ edenLiveScore.venue ≠ "" :=
  ⟨rfl, claim10_venue_always_separator.1 "T" edenEntries edenLiveScore rfl⟩

theorem except_map_bind {α β γ : Type} (x : Except Unit α) (f : α → Except Unit β)
    (g : β → γ) : (x >>= f).map g = x >>= fun a => (f a).map g := by
  cases x <;> rfl

theorem except_map_ok {α β : Type} (a : α) (g : α → β) :
    (Except.ok a : Except Unit α).map g = .ok (g a) := rfl

/-- C9.  The capture timestamp is the only thing about
`parse_match_live_score` that depends on the wall clock: its result at
capture time `now` is its result at any fixed capture time with only
the `last_updated` field replaced.  (`parse_live_matches` and
`parse_match_scorecard` take no clock at all — they are plain functions
of the input tree, so two calls on the same input are equal by
definition.) -/
theorem claim9_only_timestamp_varies :
    ∀ (now : String) (match_details : RawNode),
      parse_match_live_score now match_details
        = (parse_match_live_score "" match_details).map
            (Option.map (fun ls => { ls with last_updated := now })) := by
  intro now match_details
  cases match_details with
  | dict d =>
      rw [parse_match_live_score, parse_match_live_score]
      simp only [except_map_bind, except_map_ok, except_pure_eq_ok, Option.map_some, Option.map_some']
  | list items => rfl
  | str s => rfl
  | int n => rfl
  | float f => rfl
  | bool b => rfl
  | null => rfl

theorem mapM_ok_length {α β : Type} {f : α → Except Unit β} :
    ∀ {l : List α} {ys : List β}, l.mapM f = .ok ys → ys.length = l.length := by
  intro l
  induction l with
  | nil =>
      intro ys h
      rw [List.mapM_nil] at h
      simp at h
      simp [← h]
  | cons a tl ih =>
      intro ys h
      rw [List.mapM_cons] at h
      obtain ⟨y, hy, h⟩ := bind_ok_inv h
      obtain ⟨ys', hys, h⟩ := bind_ok_inv h
      simp at h
      rw [← h]
      simp [ih hys]

/-- The accumulating innings loop produces exactly the concatenation of
the per-innings row lists, appended after the accumulators. -/
theorem scorecardLoop_ok_inv {sd : List (String × RawNode)} :
    ∀ (inns : List RawNode) (bs0 : List BattingRow) (ws0 : List BowlingRow)
      (bs : List BattingRow) (ws : List BowlingRow),
      scorecardLoop sd inns bs0 ws0 = .ok (bs, ws) →
      ∃ parts, inns.mapM (scoreInnings sd) = .ok parts
        ∧ bs = bs0 ++ (parts.map Prod.fst).flatten
        ∧ ws = ws0 ++ (parts.map Prod.snd).flatten := by
  intro inns
  induction inns with
  | nil =>
      intro bs0 ws0 bs ws h
      rw [scorecardLoop] at h
      simp at h
      exact ⟨[], rfl, by simp [h.1], by simp [h.2]⟩
  | cons inn tl ih =>
      intro bs0 ws0 bs ws h
      rw [scorecardLoop] at h
      obtain ⟨p, hp, h⟩ := bind_ok_inv h
      obtain ⟨b2, w2⟩ := p
      obtain ⟨parts, hparts, hbs, hws⟩ := ih (bs0 ++ b2) (ws0 ++ w2) bs ws h
      refine ⟨(b2, w2) :: parts, ?_, ?_, ?_⟩
      · rw [List.mapM_cons, hp, hparts]
        rfl
      · simp [hbs]
      · simp [hws]

/-- C4 (amended).  On a mapping input, `parse_match_scorecard` iterates
`scoreCard` (absent → no innings, empty output) in source order and
returns the in-order concatenation of the per-innings row lists; each
innings contributes one batting row per `batTeamDetails.batsmenData`
entry and one bowling row per `bowlTeamDetails.bowlersData` entry (the
opaque player-id key is discarded — only multiplicity and order
matter); numeric fields default to `0` (`0.0` for `overs` and the rate
fields `strikeRate`/`economy`) and a missing `outDesc` defaults to the
literal `"not out"`. -/
theorem claim4_scorecard_iteration :
    (∀ (sd : List (String × RawNode)) (inns : List RawNode)
       (bs : List BattingRow) (ws : List BowlingRow),
       dictGet sd "scoreCard" = some (.list inns) →
       parse_match_scorecard (.dict sd) = .ok (bs, ws) →
       ∃ parts, inns.mapM (scoreInnings sd) = .ok parts
         ∧ bs = (parts.map Prod.fst).flatten ∧ ws = (parts.map Prod.snd).flatten)
    ∧ (∀ sd : List (String × RawNode),
       dictGet sd "scoreCard" = none →
       parse_match_scorecard (.dict sd) = .ok ([], []))
    ∧ (∀ (sd inn : List (String × RawNode)) (bd wd : List (String × RawNode))
       (rows : List BattingRow × List BowlingRow),
       pyGet ((dictGet inn "batTeamDetails").getD (.dict [])) "batsmenData" (.dict [])
         = .ok (.dict bd) →
       pyGet ((dictGet inn "bowlTeamDetails").getD (.dict [])) "bowlersData" (.dict [])
         = .ok (.dict wd) →
       scoreInnings sd (.dict inn) = .ok rows →
       rows.1.length = bd.length ∧ rows.2.length = wd.length)
    ∧ (∀ (mid innv team : RawNode) (p : List (String × RawNode)),
       dictGet p "outDesc" = none →
       ∃ row, mkBattingRow mid innv team (.dict p) = .ok row
         ∧ row.status = .str "not out"
         ∧ (dictGet p "runs" = none → row.runs = .int 0)
         ∧ (dictGet p "strikeRate" = none → row.strike_rate = .float "0.0"))
    ∧ (∀ (mid innv team : RawNode) (p : List (String × RawNode)),
       dictGet p "overs" = none →
       ∃ row, mkBowlingRow mid innv team (.dict p) = .ok row
         ∧ row.overs = .float "0.0"
         ∧ (dictGet p "economy" = none → row.economy = .float "0.0")
         ∧ (dictGet p "wickets" = none → row.wickets = .int 0)) := by
  refine ⟨?_, ?_, ?_, ?_, ?_⟩
  · intro sd inns bs ws hsc h
    rw [parse_match_scorecard] at h
    rw [hsc] at h
    simp only [Option.getD_some] at h
    obtain ⟨innList, hi, h⟩ := bind_ok_inv h
    have hi2 : Except.ok inns = Except.ok innList := hi
    simp at hi2
    rw [← hi2] at h
    obtain ⟨parts, hparts, hbs, hws⟩ := scorecardLoop_ok_inv inns [] [] bs ws h
    exact ⟨parts, hparts, by simpa using hbs, by simpa using hws⟩
  · intro sd hsc
    rw [parse_match_scorecard]
    rw [hsc]
    rfl
  · intro sd inn bd wd rows hbd hwd h
    rw [scoreInnings] at h
    obtain ⟨bdv, hbv, h⟩ := bind_ok_inv h
    rw [hbd] at hbv
    simp at hbv
    rw [← hbv] at h
    obtain ⟨batsmen, hbm, h⟩ := bind_ok_inv h
    have hbm2 : Except.ok bd = Except.ok batsmen := hbm
    simp at hbm2
    rw [← hbm2] at h
    obtain ⟨brows, hbr, h⟩ := bind_ok_inv h
    obtain ⟨wdv, hwv, h⟩ := bind_ok_inv h
    rw [hwd] at hwv
    simp at hwv
    rw [← hwv] at h
    obtain ⟨bowlers, hwm, h⟩ := bind_ok_inv h
    have hwm2 : Except.ok wd = Except.ok bowlers := hwm
    simp at hwm2
    rw [← hwm2] at h
    obtain ⟨wrows, hwr, h⟩ := bind_ok_inv h
    simp at h
    rw [← h]
    constructor
    · simpa using mapM_ok_length hbr
    · simpa using mapM_ok_length hwr
  · intro mid innv team p hout
    refine ⟨_, rfl, ?_, ?_, ?_⟩
    · simp [hout]
    · intro hr; simp [hr]
    · intro hr; simp [hr]
  · intro mid innv team p hov
    refine ⟨_, rfl, ?_, ?_, ?_⟩
    · simp [hov]
    · intro hr; simp [hr]
    · intro hr; simp [hr]

/-- Witness for C4: on the two-innings payload the result is the
in-order concatenation of per-innings row lists, with the defaulted
fields (`runs` 0, `strike_rate` 0.0, `status` `"not out"`, `overs`
0.0) visible in the concrete rows. -/
theorem claim4_scorecard_iteration_witness :
    parse_match_scorecard (.dict scorecardEntriesC4) = .ok (battingRowsC4, bowlingRowsC4)
    ∧ ∃ parts, innsListC4.mapM (scoreInnings scorecardEntriesC4) = .ok parts
        ∧ battingRowsC4 = (parts.map Prod.fst).flatten
        ∧ bowlingRowsC4 = (parts.map Prod.snd).flatten :=
  ⟨rfl, claim4_scorecard_iteration.1 scorecardEntriesC4 innsListC4
     battingRowsC4 bowlingRowsC4 rfl rfl⟩

/-- Counterexample for C4 as stated: the source reads the keys
`batTeamDetails`/`bowlTeamDetails`, not
`battingTeamDetails`/`bowlingTeamDetails`.  A batsman filed under the
claim's key name produces no row; the same batsman under the source's
key name produces one. -/
theorem claim4_key_name_counterexample :
    parse_match_scorecard (.dict [("scoreCard", .list [.dict
      [("battingTeamDetails", .dict [("batsmenData", .dict
         [("1", .dict [("name", .str "A")])])])]])])
      = .ok ([], [])
    ∧ parse_match_scorecard (.dict [("scoreCard", .list [.dict
      [("batTeamDetails", .dict [("batsmenData", .dict
         [("1", .dict [("name", .str "A")])])])]])])
      = .ok ([{ match_id := .str "", innings := .int 0, team := .str "",
                player := .str "A", runs := .int 0, balls := .int 0,
                fours := .int 0, sixes := .int 0, strike_rate := .float "0.0",
                status := .str "not out" }], []) :=
  ⟨rfl, rfl⟩

/-! ### Claim C2: shape conditions rule out exceptions -/

theorem shape_dictGet {d : List (String × RawNode)} {k : String} {v : RawNode}
    (hs : shapeOkValues d = true) (hd : dictGet d k = some v) :
    keyShapeOk k v = true ∧ shapeOk v = true := by
  induction d with
  | nil => rw [dictGet] at hd; exact Option.noConfusion hd
  | cons kv tl ih =>
      obtain ⟨k', v'⟩ := kv
      rw [shapeOkValues] at hs
      simp only [Bool.and_eq_true] at hs
      rw [dictGet] at hd
      by_cases hk : k' = k
      · rw [if_pos hk] at hd
        simp only [Option.some.injEq] at hd
        subst hd
        subst hk
        exact ⟨hs.1.1, hs.1.2⟩
      · rw [if_neg hk] at hd
        exact ih hs.2 hd

theorem pyGet_ok_of_isDict {v : RawNode} {key : String} {dflt : RawNode}
    (h : v.isDict = true) : ∃ w, pyGet v key dflt = .ok w := by
  cases v with
  | dict dd => exact ⟨_, rfl⟩
  | list l => simp [RawNode.isDict] at h
  | str s => simp [RawNode.isDict] at h
  | int n => simp [RawNode.isDict] at h
  | float f => simp [RawNode.isDict] at h
  | bool b => simp [RawNode.isDict] at h
  | null => simp [RawNode.isDict] at h

/-- A field navigated with a `{}` default is a mapping whose entries
satisfy the shape condition, provided a present value under the key is
constrained to be a mapping. -/
theorem shape_field_dict {d : List (String × RawNode)} {k : String}
    (hs : shapeOkValues d = true)
    (himp : ∀ v, keyShapeOk k v = true → v.isDict = true) :
    ∃ md, (dictGet d k).getD (.dict []) = .dict md ∧ shapeOkValues md = true := by
  cases hd : dictGet d k with
  | none => exact ⟨[], rfl, rfl⟩
  | some v =>
      obtain ⟨hk, hv⟩ := shape_dictGet hs hd
      have hdict := himp v hk
      cases v with
      | dict md =>
          refine ⟨md, rfl, ?_⟩
          rw [shapeOk] at hv
          exact hv
      | list l => simp [RawNode.isDict] at hdict
      | str s => simp [RawNode.isDict] at hdict
      | int n => simp [RawNode.isDict] at hdict
      | float f => simp [RawNode.isDict] at hdict
      | bool b => simp [RawNode.isDict] at hdict
      | null => simp [RawNode.isDict] at hdict

theorem emitRecord_ok_of_shape {entries mi : List (String × RawNode)}
    (hmi : shapeOkValues mi = true) :
    ∃ e, emitRecord entries mi = .ok e := by
  rw [emitRecord]
  by_cases hid : pyTruthy ((dictGet mi "matchId").getD .null)
  · rw [if_pos hid]
    obtain ⟨t1d, ht1, -⟩ := shape_field_dict (k := "team1") hmi (fun v hv => hv)
    obtain ⟨t2d, ht2, -⟩ := shape_field_dict (k := "team2") hmi (fun v hv => hv)
    obtain ⟨vid, hvi, -⟩ := shape_field_dict (k := "venueInfo") hmi (fun v hv => hv)
    rw [ht1, ht2, hvi]
    exact ⟨_, rfl⟩
  · rw [if_neg hid]
    exact ⟨[], rfl⟩

theorem mapM_ok_of_forall {α β : Type} {f : α → Except Unit β} :
    ∀ {l : List α}, (∀ x ∈ l, ∃ y, f x = .ok y) → ∃ ys, l.mapM f = .ok ys := by
  intro l
  induction l with
  | nil => intro _; exact ⟨[], rfl⟩
  | cons a tl ih =>
      intro h
      obtain ⟨y, hy⟩ := h a (by simp)
      obtain ⟨ys, hys⟩ := ih (fun x hx => h x (by simp [hx]))
      exact ⟨y :: ys, by rw [List.mapM_cons, hy, hys]; rfl⟩

mutual
/-- A tree whose entries all satisfy the shape condition never makes
the extractor raise. -/
theorem extract_ok_of_shape : ∀ t : RawNode, shapeOk t = true →
    ∃ l, extract_matches_recursive t = .ok l
  | .dict entries => fun hs => by
      rw [shapeOk] at hs
      have hemit : ∃ e, emitNode entries = .ok e := by
        rw [emitNode]
        by_cases ht : pyTruthy ((dictGet entries "matchInfo").getD .null)
        · cases hd : dictGet entries "matchInfo" with
          | none =>
              rw [hd] at ht
              simp [pyTruthy] at ht
          | some v =>
              obtain ⟨hk, hv⟩ := shape_dictGet hs hd
              have hdict : v.isDict = true := hk
              cases v with
              | dict mi =>
                  rw [hd] at ht
                  simp only [Option.getD_some] at ht ⊢
                  rw [if_pos ht]
                  have hmi : shapeOkValues mi = true := by rw [shapeOk] at hv; exact hv
                  exact emitRecord_ok_of_shape hmi
              | list l => simp [RawNode.isDict] at hdict
              | str s => simp [RawNode.isDict] at hdict
              | int n => simp [RawNode.isDict] at hdict
              | float f => simp [RawNode.isDict] at hdict
              | bool b => simp [RawNode.isDict] at hdict
              | null => simp [RawNode.isDict] at hdict
        · rw [if_neg ht]
          exact ⟨[], rfl⟩
      obtain ⟨e, he⟩ := hemit
      obtain ⟨r, hr⟩ := extractValues_ok_of_shape entries hs
      refine ⟨e ++ r, ?_⟩
      rw [extract_matches_recursive, he, hr]
      rfl
  | .list items => fun hs => by
      rw [shapeOk] at hs
      obtain ⟨l, hl⟩ := extractItems_ok_of_shape items hs
      refine ⟨l, ?_⟩
      rw [extract_matches_recursive]
      exact hl
  | .str s => fun _ => ⟨[], rfl⟩
  | .int n => fun _ => ⟨[], rfl⟩
  | .float f => fun _ => ⟨[], rfl⟩
  | .bool b => fun _ => ⟨[], rfl⟩
  | .null => fun _ => ⟨[], rfl⟩

theorem extractValues_ok_of_shape : ∀ entries : List (String × RawNode),
    shapeOkValues entries = true → ∃ l, extractValues entries = .ok l
  | [] => fun _ => ⟨[], rfl⟩
  | (k, v) :: tl => fun hs => by
      rw [shapeOkValues] at hs
      simp only [Bool.and_eq_true] at hs
      have hchild : ∃ hd, extractChild v = .ok hd := by
        rw [extractChild]
        by_cases hc : v.isContainer
        · rw [if_pos hc]
          exact extract_ok_of_shape v hs.1.2
        · rw [if_neg hc]
          exact ⟨[], rfl⟩
      obtain ⟨hd, hhd⟩ := hchild
      obtain ⟨r, hr⟩ := extractValues_ok_of_shape tl hs.2
      refine ⟨hd ++ r, ?_⟩
      rw [extractValues_cons, hhd, hr]
      rfl

theorem extractItems_ok_of_shape : ∀ items : List RawNode,
    shapeOkItems items = true → ∃ l, extractItems items = .ok l
  | [] => fun _ => ⟨[], rfl⟩
  | it :: tl => fun hs => by
      rw [shapeOkItems] at hs
      simp only [Bool.and_eq_true] at hs
      obtain ⟨hd, hhd⟩ := extract_ok_of_shape it hs.1
      obtain ⟨r, hr⟩ := extractItems_ok_of_shape tl hs.2
      refine ⟨hd ++ r, ?_⟩
      rw [extractItems, hhd, hr]
      rfl
end

/-- A field navigated expecting a sequence of mappings. -/
theorem shape_field_listOfDicts {d : List (String × RawNode)} {k : String}
    (hs : shapeOkValues d = true)
    (himp : ∀ v, keyShapeOk k v = true → isListOfDicts v = true) :
    ∃ xs, (dictGet d k).getD (.list []) = .list xs ∧ xs.all RawNode.isDict = true := by
  cases hd : dictGet d k with
  | none => exact ⟨[], rfl, rfl⟩
  | some v =>
      obtain ⟨hk, -⟩ := shape_dictGet hs hd
      have hld := himp v hk
      cases v with
      | list xs =>
          refine ⟨xs, rfl, ?_⟩
          rw [isListOfDicts] at hld
          exact hld
      | dict md => simp [isListOfDicts] at hld
      | str s => simp [isListOfDicts] at hld
      | int n => simp [isListOfDicts] at hld
      | float f => simp [isListOfDicts] at hld
      | bool b => simp [isListOfDicts] at hld
      | null => simp [isListOfDicts] at hld

/-- A field navigated expecting a mapping of mappings. -/
theorem shape_field_dictOfDicts {d : List (String × RawNode)} {k : String}
    (hs : shapeOkValues d = true)
    (himp : ∀ v, keyShapeOk k v = true → isDictOfDicts v = true) :
    ∃ bd, (dictGet d k).getD (.dict []) = .dict bd
      ∧ bd.all (fun kv => kv.2.isDict) = true := by
  cases hd : dictGet d k with
  | none => exact ⟨[], rfl, rfl⟩
  | some v =>
      obtain ⟨hk, -⟩ := shape_dictGet hs hd
      have hdd := himp v hk
      cases v with
      | dict bd =>
          refine ⟨bd, rfl, ?_⟩
          rw [isDictOfDicts] at hdd
          exact hdd
      | list l => simp [isDictOfDicts] at hdd
      | str s => simp [isDictOfDicts] at hdd
      | int n => simp [isDictOfDicts] at hdd
      | float f => simp [isDictOfDicts] at hdd
      | bool b => simp [isDictOfDicts] at hdd
      | null => simp [isDictOfDicts] at hdd

theorem scoreStringAt_ok {xs : List RawNode} (hall : xs.all RawNode.isDict = true)
    (i need : Nat) (hin : need ≤ xs.length → i < xs.length) :
    ∃ s, scoreStringAt (.list xs) xs.length i need = .ok s := by
  rw [scoreStringAt]
  by_cases hneed : need ≤ xs.length
  · rw [if_pos hneed]
    have hi := hin hneed
    have hidx : pyIndex (.list xs) i = .ok xs[i] := by
      rw [pyIndex]
      rw [List.getElem?_eq_getElem hi]
      rfl
    rw [hidx]
    simp only [except_bind_ok]
    have hmem : xs[i] ∈ xs := List.getElem_mem hi
    have hxd : xs[i].isDict = true := List.all_eq_true.mp hall xs[i] hmem
    cases hxv : xs[i] with
    | dict e => exact ⟨_, rfl⟩
    | list l => rw [hxv] at hxd; simp [RawNode.isDict] at hxd
    | str s => rw [hxv] at hxd; simp [RawNode.isDict] at hxd
    | int n => rw [hxv] at hxd; simp [RawNode.isDict] at hxd
    | float f => rw [hxv] at hxd; simp [RawNode.isDict] at hxd
    | bool b => rw [hxv] at hxd; simp [RawNode.isDict] at hxd
    | null => rw [hxv] at hxd; simp [RawNode.isDict] at hxd
  · rw [if_neg hneed]
    exact ⟨"", rfl⟩

theorem currentOverString_ok_of_shape {msd : List (String × RawNode)}
    (hms : shapeOkValues msd = true) :
    ∃ s, currentOverString (.dict msd) = .ok s := by
  rw [currentOverString]
  obtain ⟨od, hod, -⟩ := shape_field_dict (k := "overSummary") hms (fun v hv => hv)
  have hg : pyGet (.dict msd) "overSummary" (.dict []) = .ok (.dict od) := by
    rw [pyGet, hod]
    rfl
  rw [hg]
  simp only [except_bind_ok]
  by_cases ht : pyTruthy (.dict od)
  · rw [if_pos ht]
    exact ⟨_, rfl⟩
  · rw [if_neg ht]
    exact ⟨"", rfl⟩

theorem miniscoreScores_ok_of_shape {msd : List (String × RawNode)}
    (hms : shapeOkValues msd = true) :
    ∃ out, miniscoreScores (.dict msd) = .ok out := by
  rw [miniscoreScores]
  by_cases ht : pyTruthy (.dict msd)
  · rw [if_pos ht]
    obtain ⟨xs, hxs, hall⟩ := shape_field_listOfDicts (k := "inningsScores") hms (fun v hv => hv)
    have hg : pyGet (.dict msd) "inningsScores" (.list []) = .ok (.list xs) := by
      rw [pyGet, hxs]
      rfl
    rw [hg]
    simp only [except_bind_ok]
    have hlen : pyLen (.list xs) = .ok xs.length := rfl
    rw [hlen]
    simp only [except_bind_ok]
    obtain ⟨s1, hs1⟩ := scoreStringAt_ok hall 0 1 (fun h => by omega)
    obtain ⟨s2, hs2⟩ := scoreStringAt_ok hall 1 2 (fun h => by omega)
    obtain ⟨co, hco⟩ := currentOverString_ok_of_shape hms
    rw [hs1]
    simp only [except_bind_ok]
    rw [hs2]
    simp only [except_bind_ok]
    rw [hco]
    simp only [except_bind_ok]
    exact ⟨_, rfl⟩
  · rw [if_neg ht]
    exact ⟨_, rfl⟩

/-- Under the shape condition the live-score shaper returns a value on
every mapping input. -/
theorem live_ok_of_shape {d : List (String × RawNode)}
    (hs : shapeOkValues d = true) (now : String) :
    (parse_match_live_score now (.dict d)).isOk = true := by
  obtain ⟨mhd, hmh, hmhs⟩ := shape_field_dict (k := "matchHeader") hs (fun v hv => hv)
  obtain ⟨mi, hmi, hmis⟩ := shape_field_dict (k := "matchInfo") hmhs (fun v hv => hv)
  obtain ⟨t1d, ht1, -⟩ := shape_field_dict (k := "team1") hmis (fun v hv => hv)
  obtain ⟨t2d, ht2, -⟩ := shape_field_dict (k := "team2") hmis (fun v hv => hv)
  obtain ⟨trd, htr, -⟩ := shape_field_dict (k := "tossResults") hmis (fun v hv => hv)
  obtain ⟨vid, hvi, -⟩ := shape_field_dict (k := "venueInfo") hmis (fun v hv => hv)
  obtain ⟨rd, hrd, -⟩ := shape_field_dict (k := "result") hmhs (fun v hv => hv)
  obtain ⟨msd, hmsd, hmss⟩ := shape_field_dict (k := "miniscore") hs (fun v hv => hv)
  obtain ⟨out, hout⟩ := miniscoreScores_ok_of_shape hmss
  rw [parse_match_live_score]
  simp only [hmh, hmi, ht1, ht2, htr, hvi, hrd, hmsd, hout, pyGet,
    except_bind_ok, except_pure_eq_ok, except_isOk_ok]

theorem mkBattingRow_ok_of_dict {mid innv team : RawNode} {v : RawNode}
    (h : v.isDict = true) : ∃ row, mkBattingRow mid innv team v = .ok row := by
  cases v with
  | dict p => exact ⟨_, rfl⟩
  | list l => simp [RawNode.isDict] at h
  | str s => simp [RawNode.isDict] at h
  | int n => simp [RawNode.isDict] at h
  | float f => simp [RawNode.isDict] at h
  | bool b => simp [RawNode.isDict] at h
  | null => simp [RawNode.isDict] at h

theorem mkBowlingRow_ok_of_dict {mid innv team : RawNode} {v : RawNode}
    (h : v.isDict = true) : ∃ row, mkBowlingRow mid innv team v = .ok row := by
  cases v with
  | dict p => exact ⟨_, rfl⟩
  | list l => simp [RawNode.isDict] at h
  | str s => simp [RawNode.isDict] at h
  | int n => simp [RawNode.isDict] at h
  | float f => simp [RawNode.isDict] at h
  | bool b => simp [RawNode.isDict] at h
  | null => simp [RawNode.isDict] at h

/-- Under the shape condition one innings entry (a mapping) shapes
without raising. -/
theorem scoreInnings_ok_of_shape {sd inn : List (String × RawNode)}
    (hinn : shapeOkValues inn = true) :
    ∃ rows, scoreInnings sd (.dict inn) = .ok rows := by
  rw [scoreInnings]
  obtain ⟨btd, hbtd, hbts⟩ := shape_field_dict (k := "batTeamDetails") hinn (fun v hv => hv)
  obtain ⟨bd, hbd, hball⟩ := shape_field_dictOfDicts (k := "batsmenData") hbts (fun v hv => hv)
  obtain ⟨wtd, hwtd, hwts⟩ := shape_field_dict (k := "bowlTeamDetails") hinn (fun v hv => hv)
  obtain ⟨wd, hwd, hwall⟩ := shape_field_dictOfDicts (k := "bowlersData") hwts (fun v hv => hv)
  obtain ⟨brows, hbrows⟩ := mapM_ok_of_forall (l := bd)
    (f := fun kv => mkBattingRow ((dictGet sd "matchId").getD (.str ""))
      ((dictGet inn "inningsId").getD (.int 0))
      ((dictGet inn "batTeamName").getD (.str "")) kv.2)
    (fun kv hkv => mkBattingRow_ok_of_dict (List.all_eq_true.mp hball kv hkv))
  obtain ⟨wrows, hwrows⟩ := mapM_ok_of_forall (l := wd)
    (f := fun kv => mkBowlingRow ((dictGet sd "matchId").getD (.str ""))
      ((dictGet inn "inningsId").getD (.int 0))
      ((dictGet inn "bowlTeamName").getD (.str "")) kv.2)
    (fun kv hkv => mkBowlingRow_ok_of_dict (List.all_eq_true.mp hwall kv hkv))
  simp only [hbtd, hbd, hwtd, hwd, pyGet, pyItems, except_bind_ok,
    except_pure_eq_ok, hbrows, hwrows]
  exact ⟨_, rfl⟩

theorem scorecardLoop_ok_of_shape {sd : List (String × RawNode)} :
    ∀ (inns : List RawNode), inns.all RawNode.isDict = true →
      shapeOkItems inns = true →
      ∀ (bs0 : List BattingRow) (ws0 : List BowlingRow),
        ∃ out, scorecardLoop sd inns bs0 ws0 = .ok out := by
  intro inns
  induction inns with
  | nil => intro _ _ bs0 ws0; exact ⟨(bs0, ws0), rfl⟩
  | cons inn tl ih =>
      intro hall hitems bs0 ws0
      rw [List.all_cons, Bool.and_eq_true] at hall
      rw [shapeOkItems, Bool.and_eq_true] at hitems
      have hrows : ∃ rows, scoreInnings sd inn = .ok rows := by
        cases inn with
        | dict ie =>
            have : shapeOkValues ie = true := by
              have h2 := hitems.1
              rw [shapeOk] at h2
              exact h2
            exact scoreInnings_ok_of_shape this
        | list l => simp [RawNode.isDict] at hall
        | str s => simp [RawNode.isDict] at hall
        | int n => simp [RawNode.isDict] at hall
        | float f => simp [RawNode.isDict] at hall
        | bool b => simp [RawNode.isDict] at hall
        | null => simp [RawNode.isDict] at hall
      obtain ⟨⟨b2, w2⟩, hrows⟩ := hrows
      obtain ⟨out, hloop⟩ := ih hall.2 hitems.2 (bs0 ++ b2) (ws0 ++ w2)
      refine ⟨out, ?_⟩
      rw [scorecardLoop, hrows]
      simp only [except_bind_ok]
      exact hloop

/-- Under the shape condition the scorecard shaper returns a value on
every mapping input. -/
theorem scorecard_ok_of_shape {sd : List (String × RawNode)}
    (hs : shapeOkValues sd = true) :
    (parse_match_scorecard (.dict sd)).isOk = true := by
  obtain ⟨xs, hxs, hall⟩ := shape_field_listOfDicts (k := "scoreCard") hs (fun v hv => hv)
  have hitems : shapeOkItems xs = true := by
    cases hd : dictGet sd "scoreCard" with
    | none =>
        rw [hd] at hxs
        simp at hxs
        rw [hxs]
        rfl
    | some v =>
        obtain ⟨-, hv⟩ := shape_dictGet hs hd
        rw [hd] at hxs
        simp at hxs
        subst hxs
        rw [shapeOk] at hv
        exact hv
  obtain ⟨out, hloop⟩ := scorecardLoop_ok_of_shape xs hall hitems [] []
  rw [parse_match_scorecard]
  rw [hxs]
  have hit : pyIterate (.list xs) = .ok xs := rfl
  rw [hit]
  simp only [except_bind_ok]
  rw [hloop]
  rfl

/-- C2 (amended).  Missing keys never raise — navigation always
defaults — and each of the three parsers returns a value on every tree
satisfying `shapeOk`: every present value under a structure-bearing key
has the shape the fixed-path navigation expects (a mapping under
`matchInfo`, `team1`, `team2`, `venueInfo`, `matchHeader`,
`tossResults`, `result`, `miniscore`, `overSummary`, `batTeamDetails`,
`bowlTeamDetails`; a sequence of mappings under `inningsScores` and
`scoreCard`; a mapping of mappings under `batsmenData` and
`bowlersData`).  A present value of the wrong shape (e.g. a string
under `matchInfo`) makes the corresponding parser raise
`AttributeError`/`TypeError`, so "never raises on any input" is false. -/
theorem claim2_total_under_shape :
    ∀ (t : RawNode) (now : String), shapeOk t = true →
      (parse_live_matches t).isOk = true
      ∧ (parse_match_live_score now t).isOk = true
      ∧ (parse_match_scorecard t).isOk = true := by
  intro t now hs
  refine ⟨?_, ?_, ?_⟩
  · cases t with
    | dict entries =>
        obtain ⟨l, hl⟩ := extract_ok_of_shape (.dict entries) hs
        rw [parse_live_matches, hl]
        rfl
    | list items => rfl
    | str s => rfl
    | int n => rfl
    | float f => rfl
    | bool b => rfl
    | null => rfl
  · cases t with
    | dict d =>
        have hsv : shapeOkValues d = true := by rw [shapeOk] at hs; exact hs
        exact live_ok_of_shape hsv now
    | list items => rfl
    | str s => rfl
    | int n => rfl
    | float f => rfl
    | bool b => rfl
    | null => rfl
  · cases t with
    | dict d =>
        have hsv : shapeOkValues d = true := by rw [shapeOk] at hs; exact hs
        exact scorecard_ok_of_shape hsv
    | list items => rfl
    | str s => rfl
    | int n => rfl
    | float f => rfl
    | bool b => rfl
    | null => rfl

/-- Witness for C2: a ragged but well-shaped payload is accepted by all
three parsers without an exception. -/
theorem claim2_total_under_shape_witness :
    shapeOk mixedTree = true
    ∧ (parse_live_matches mixedTree).isOk = true
    ∧ (parse_match_live_score "T" mixedTree).isOk = true
    ∧ (parse_match_scorecard mixedTree).isOk = true :=
  ⟨rfl, (claim2_total_under_shape mixedTree "T" rfl).1,
    (claim2_total_under_shape mixedTree "T" rfl).2.1,
    (claim2_total_under_shape mixedTree "T" rfl).2.2⟩

/-- Counterexample for C2 as stated: one wrong-shaped present value
makes each parser raise (`AttributeError` on `.get`/`.items`, or
`TypeError` iterating a number), so "returns a value for every input
tree, never raises" is false for all three. -/
theorem claim2_raises_counterexample :
    parse_live_matches (.dict [("matchInfo", .str "oops")]) = .error ()
    ∧ parse_match_live_score "T" (.dict [("matchHeader", .str "oops")]) = .error ()
    ∧ parse_match_scorecard (.dict [("scoreCard", .int 3)]) = .error () :=
  ⟨rfl, rfl, rfl⟩

/-! ### Sanity checks on concrete trees -/

example : parse_live_matches (.dict [("matchInfo", .dict [("matchId", .int 5)])])
    = .ok [defaultSummary (.int 5)] := rfl

example : parse_live_matches (.dict [("matchInfo", .dict [("matchId", .int 0)])]) = .ok [] := rfl

example : parse_live_matches (.list [qualLeaf (.int 5)]) = .ok [] := rfl

example : parse_match_scorecard (.dict [("scoreCard", .list [])]) = .ok ([], []) := rfl

example : parse_match_scorecard (.str "x") = .ok ([], []) := rfl

example : parse_match_live_score "T" .null = .ok none := rfl
